import Mathlib

/-!
# Verification of the agent-aqi Job & Battle Execution Engine

Shallow embedding of the core of the `agent-aqi` repository
(paper-bet pari-mutuel settlement, AQI composite scoring, battle winner
determination, the bounded in-memory store, stream reconciliation, the job
pipeline, and route-level input validation), with theorems settling the
frozen specification claims.

Numeric values that are JavaScript `number`s in the source are modelled as
exact rationals (`ℚ`); `Math.round` is modelled as round-half-up
(`⌊q + 1/2⌋`), which is the JavaScript semantics on every value appearing
in the concrete inputs used below.
-/

namespace AgentAqi

/-- JavaScript `Math.round`: round half toward positive infinity. -/
def jsRound (q : ℚ) : ℤ := ⌊q + 1/2⌋

/-- `r1` from `paperBets.ts` / the one-decimal rounding in `scoring.ts`:
`Math.round(n * 10) / 10`. -/
def r1 (n : ℚ) : ℚ := (jsRound (n * 10) : ℚ) / 10

/-- `r3` from `paperBets.ts`: `Math.round(n * 1000) / 1000`. -/
def r3 (n : ℚ) : ℚ := (jsRound (n * 1000) : ℚ) / 1000

/-- `r4` from `paperBets.ts`: `Math.round(n * 10000) / 10000`. -/
def r4 (n : ℚ) : ℚ := (jsRound (n * 10000) : ℚ) / 10000

/-- The `AgentId` union type from `packages/shared/src/types.ts`:
`"safe" | "fast" | "cheap"`. -/
inductive AgentId where
  | safe
  | fast
  | cheap
deriving DecidableEq, Repr

/-- A `PaperBet` record (`packages/shared/src/types.ts`); the `id` and
`placedAt` fields are opaque to settlement and modelled as naturals. -/
structure PaperBet where
  id        : Nat
  battleId  : String
  nickname  : String
  agentId   : AgentId
  amountEth : ℚ
  placedAt  : Nat
deriving DecidableEq, Repr

/-- A `PaperBetResult` record (`packages/shared/src/types.ts`). -/
structure PaperBetResult where
  betId     : Nat
  battleId  : String
  nickname  : String
  agentId   : AgentId
  amountEth : ℚ
  pnlEth    : ℚ
  roiPct    : ℚ
  won       : Bool
deriving DecidableEq, Repr

/-- The result list computed by `resolvePaperBets` (`paperBets.ts` lines
125–152) on its first resolution of a battle, from the battle's bets. -/
def resolveResults (battleId : String) (winnerAgentId : AgentId)
    (bets : List PaperBet) : List PaperBetResult :=
  let totalPool   := (bets.map (·.amountEth)).sum
  let winnerBets  := bets.filter (fun b => b.agentId = winnerAgentId)
  let winnersPool := (winnerBets.map (·.amountEth)).sum
  let losersPool  := totalPool - winnersPool
  bets.map (fun bet =>
    let won := bet.agentId = winnerAgentId
    let pnlEth :=
      if won ∧ winnersPool > 0 then
        r4 (bet.amountEth / winnersPool * losersPool)
      else
        -bet.amountEth
    let roiPct := r1 (pnlEth / bet.amountEth * 100)
    { betId     := bet.id
      battleId  := battleId
      nickname  := bet.nickname
      agentId   := bet.agentId
      amountEth := bet.amountEth
      pnlEth    := pnlEth
      roiPct    := roiPct
      won       := won })

/-- The per-nickname aggregate record `NicknameStats` (`paperBets.ts` lines
27–36). -/
structure NicknameStats where
  nickname      : String
  totalPnl      : ℚ
  totalBets     : Nat
  wins          : Nat
  totalWagered  : ℚ
  biggestWin    : ℚ
  biggestLoss   : ℚ
  currentStreak : ℤ
deriving DecidableEq, Repr

/-- A fresh stats record as created by `getOrCreate` (`paperBets.ts` lines
40–54). -/
def freshStats (nickname : String) : NicknameStats :=
  { nickname      := nickname
    totalPnl      := 0
    totalBets     := 0
    wins          := 0
    totalWagered  := 0
    biggestWin    := 0
    biggestLoss   := 0
    currentStreak := 0 }

/-- The kinds of SSE events the paper-bet module emits via `emitEvent`. -/
inductive PaperEventTag where
  | paperbetPlaced
  | participationUpdate
  | paperbetResolved
deriving DecidableEq, Repr

/-- The mutable module state of `paperBets.ts`: the `paperBets` and
`paperResults` arrays, the `nicknameStats` map (a JavaScript `Map`, which
preserves insertion order — modelled as an association list appended on
first insert), and the tags of the events appended to the store's event
log by `emitEvent`. -/
structure PaperState where
  paperBets     : List PaperBet
  paperResults  : List PaperBetResult
  nicknameStats : List (String × NicknameStats)
  events        : List PaperEventTag
deriving DecidableEq, Repr

/-- Lookup in the `nicknameStats` map. -/
def lookupStats (m : List (String × NicknameStats)) (k : String) :
    Option NicknameStats :=
  (m.find? (fun p => p.1 = k)).map (·.2)

/-- `Map.set` semantics: overwrite in place when the key exists, else append
(JavaScript `Map` insertion order). -/
def setStats (m : List (String × NicknameStats)) (k : String)
    (v : NicknameStats) : List (String × NicknameStats) :=
  if (m.find? (fun p => p.1 = k)).isSome then
    m.map (fun p => if p.1 = k then (k, v) else p)
  else
    m ++ [(k, v)]

/-- The per-result stats mutation of `resolvePaperBets` (`paperBets.ts`
lines 157–172), applied to the (possibly freshly created) stats record of
the result's nickname. -/
def applyResult (s : NicknameStats) (res : PaperBetResult) : NicknameStats :=
  let s1 := { s with
    totalPnl     := r4 (s.totalPnl + res.pnlEth)
    totalBets    := s.totalBets + 1
    totalWagered := r3 (s.totalWagered + res.amountEth) }
  if res.won then
    { s1 with
      wins          := s1.wins + 1
      biggestWin    := if res.pnlEth > s1.biggestWin then res.pnlEth else s1.biggestWin
      currentStreak := if s1.currentStreak ≥ 0 then s1.currentStreak + 1 else 1 }
  else
    let loss := |res.pnlEth|
    { s1 with
      biggestLoss   := if loss > s1.biggestLoss then loss else s1.biggestLoss
      currentStreak := if s1.currentStreak ≤ 0 then s1.currentStreak - 1 else -1 }

/-- One iteration of the stats-update loop: `getOrCreate` followed by the
mutation, written back into the map. -/
def updateStats (m : List (String × NicknameStats)) (res : PaperBetResult) :
    List (String × NicknameStats) :=
  let s := (lookupStats m res.nickname).getD (freshStats res.nickname)
  setStats m res.nickname (applyResult s res)

/-- `resolvePaperBets` (`paperBets.ts` lines 114–192) as a state transition:
returns the result list and the updated module state.  The early idempotence
return (lines 118–120), the empty-bets return (lines 122–123), the result
computation, the `paperResults` append, the stats loop, and the
`paperbet_resolved` event are all modelled; `console.log` has no state. -/
def resolvePaperBets (battleId : String) (winnerAgentId : AgentId)
    (st : PaperState) : List PaperBetResult × PaperState :=
  let existing := st.paperResults.filter (fun r => r.battleId = battleId)
  if existing ≠ [] then (existing, st)
  else
    let bets := st.paperBets.filter (fun b => b.battleId = battleId)
    if bets = [] then ([], st)
    else
      let results := resolveResults battleId winnerAgentId bets
      ( results
      , { st with
          paperResults  := st.paperResults ++ results
          nicknameStats := results.foldl updateStats st.nicknameStats
          events        := st.events ++ [.paperbetResolved] } )

/-- `placeBet` (`paperBets.ts` lines 58–89): append the bet and emit the
`paperbet_placed` and `participation_update` events.  The generated UUID is
modelled by the `freshId` argument. -/
def placeBet (battleId : String) (nickname : String) (agentId : AgentId)
    (amountEth : ℚ) (freshId : Nat) (now : Nat) (st : PaperState) :
    PaperBet × PaperState :=
  let bet : PaperBet :=
    { id := freshId, battleId := battleId, nickname := nickname
      agentId := agentId, amountEth := amountEth, placedAt := now }
  ( bet
  , { st with
      paperBets := st.paperBets ++ [bet]
      events    := st.events ++ [.paperbetPlaced, .participationUpdate] } )

-- ─── Concrete inputs used by witnesses and counterexamples ───────────────────

/-- A battle with a single 0.001 ETH bet that is not on the winner. -/
def soloLossState : PaperState :=
  { paperBets     := [⟨0, "b", "n1", .safe, 1/1000, 0⟩]
    paperResults  := []
    nicknameStats := []
    events        := [] }

/-- The spec's worked example: stakes 0.01 on `safe`, 0.02 on `fast`,
0.03 on `cheap`. -/
def demoState : PaperState :=
  { paperBets     := [⟨0, "d", "alice", .safe, 1/100, 0⟩,
                      ⟨1, "d", "bob", .fast, 1/50, 0⟩,
                      ⟨2, "d", "carol", .cheap, 3/100, 0⟩]
    paperResults  := []
    nicknameStats := []
    events        := [] }

/-- Bets exhibiting rounding: winner bets 0.003 and 0.005, loser bet 0.001
(winner pool 0.008, loser pool 0.001). -/
def roundingBets : List PaperBet :=
  [⟨0, "b", "n1", .fast, 3/1000, 0⟩,
   ⟨1, "b", "n2", .fast, 5/1000, 0⟩,
   ⟨2, "b", "n3", .safe, 1/1000, 0⟩]

/-- The result record `resolveResults` produces for `fast`'s backer in the
spec's worked example. -/
def demoWinnerResult : PaperBetResult :=
  { betId := 1, battleId := "d", nickname := "bob", agentId := .fast
    amountEth := 1/50, pnlEth := 1/25, roiPct := 200, won := true }

-- ─── Receipts and AQI scoring (packages/shared/src/scoring.ts) ───────────────

/-- The `JobStatus` union from `packages/shared/src/types.ts`. -/
inductive JobStatus where
  | fulfilled
  | failed
deriving DecidableEq, Repr

/-- The constraint fields of `JobConstraints` that the core reads
(`objective` and `jobType` are labels never used by scoring or winner
rules and are omitted). -/
structure JobConstraints where
  maxSlippageBps : ℚ
  maxGasUsd      : ℚ
  deadlineMs     : ℚ
deriving DecidableEq, Repr

/-- `OutcomeMetrics` from `packages/shared/src/types.ts`. -/
structure OutcomeMetrics where
  status      : JobStatus
  latencyMs   : ℚ
  gasUsedUsd  : ℚ
  slippageBps : ℚ
  safetyFlags : List String
deriving DecidableEq, Repr

/-- `OnChainEvidence` from `packages/shared/src/types.ts`.  `status` is the
EVM execution status string ("success" or "reverted"). -/
structure OnChainEvidence where
  txHash      : String
  blockNumber : Nat
  chainId     : Nat
  gasUsed     : String
  status      : String
  verifiedBy  : Option String
  confirmedAt : Option Nat
deriving DecidableEq, Repr

/-- A `Receipt` (`packages/shared/src/types.ts`), with the fields the core
reads.  `userFeedback` is the optional rating (1–5 in the TypeScript type).
The swap/quote/tx-payload attachments are opaque to scoring, the store and
reconciliation and are tracked separately in the job-pipeline model. -/
structure Receipt where
  jobId        : String
  agentId      : AgentId
  submittedAt  : Nat
  completedAt  : Nat
  constraints  : JobConstraints
  outcome      : OutcomeMetrics
  onChain      : Option OnChainEvidence
  userFeedback : Option ℚ
  battleId     : Option String
deriving DecidableEq, Repr

/-- `scoreReliability` (`scoring.ts` lines 15–19). -/
def scoreReliability (receipts : List Receipt) : ℚ :=
  if receipts = [] then 0
  else ((receipts.filter
      (fun r => r.outcome.status = JobStatus.fulfilled)).length : ℚ)
    / receipts.length * 100

/-- `scoreSafety` (`scoring.ts` lines 26–41). -/
def scoreSafety (receipts : List Receipt) : ℚ :=
  if receipts = [] then 0
  else
    let scores := receipts.map (fun r =>
      let afterFlags := 100 - min ((r.outcome.safetyFlags.length : ℚ) * 10) 50
      let excessBps  := max 0 (r.outcome.slippageBps - r.constraints.maxSlippageBps)
      let afterSlip  := afterFlags - min (excessBps / 100 * 15) 30
      max 0 afterSlip)
    scores.sum / scores.length

/-- `scoreSpeed` (`scoring.ts` lines 47–56). -/
def scoreSpeed (receipts : List Receipt) : ℚ :=
  if receipts = [] then 0
  else
    let scores := receipts.map (fun r =>
      let ratio := r.outcome.latencyMs / r.constraints.deadlineMs
      if ratio ≤ 1 then 100
      else if ratio ≥ 3 then 0
      else max 0 (100 - (ratio - 1) / 2 * 100))
    scores.sum / scores.length

/-- `scoreEconomics` (`scoring.ts` lines 62–71). -/
def scoreEconomics (receipts : List Receipt) : ℚ :=
  if receipts = [] then 0
  else
    let scores := receipts.map (fun r =>
      let ratio := r.outcome.gasUsedUsd / r.constraints.maxGasUsd
      if ratio ≤ 1 then 100
      else if ratio ≥ 2 then 0
      else max 0 (100 - (ratio - 1) * 100))
    scores.sum / scores.length

/-- `scoreFeedback` (`scoring.ts` lines 77–83). -/
def scoreFeedback (receipts : List Receipt) : ℚ :=
  let rated := receipts.filter (fun r => r.userFeedback.isSome)
  if rated = [] then 70
  else ((rated.map (fun r => r.userFeedback.getD 0)).sum / rated.length) * 20

/-- `AQIComponents` from `packages/shared/src/types.ts`. -/
structure AQIComponents where
  reliability : ℚ
  safety      : ℚ
  speed       : ℚ
  economics   : ℚ
  feedback    : ℚ
deriving DecidableEq, Repr

/-- `AQIResult` from `packages/shared/src/types.ts`. -/
structure AQIResult where
  score      : ℚ
  components : AQIComponents
  sampleSize : Nat
deriving DecidableEq, Repr

/-- `computeAQI` (`scoring.ts` lines 87–114), with the fixed weights
0.30 / 0.25 / 0.20 / 0.15 / 0.10 from `WEIGHTS`. -/
def computeAQI (receipts : List Receipt) : AQIResult :=
  let reliability := scoreReliability receipts
  let safety      := scoreSafety receipts
  let speed       := scoreSpeed receipts
  let economics   := scoreEconomics receipts
  let feedback    := scoreFeedback receipts
  let score := reliability * (30/100) + safety * (25/100) + speed * (20/100)
    + economics * (15/100) + feedback * (10/100)
  { score      := r1 score
    components :=
      { reliability := r1 reliability
        safety      := r1 safety
        speed       := r1 speed
        economics   := r1 economics
        feedback    := r1 feedback }
    sampleSize := receipts.length }

-- ─── Battles and winner determination (apps/api/src/routes/arena.ts) ─────────

/-- The per-agent scorecard status (`BattleScorecard.status` in
`packages/shared/src/types.ts`). -/
inductive CardStatus where
  | pending
  | running
  | fulfilled
  | failed
deriving DecidableEq, Repr

/-- `BattleScorecard` from `packages/shared/src/types.ts`. -/
structure BattleScorecard where
  agentId          : AgentId
  jobId            : Option String
  status           : CardStatus
  latencyMs        : Option ℚ
  gasUsedUsd       : Option ℚ
  slippageBps      : Option ℚ
  quotedOut        : Option String
  verifiedByStream : Option Bool
deriving DecidableEq, Repr

/-- `BattleType` from `packages/shared/src/types.ts`. -/
inductive BattleType where
  | speed
  | gas
  | reliability
  | slippage
deriving DecidableEq, Repr

/-- `BattleStatus` from `packages/shared/src/types.ts`. -/
inductive BattleStatus where
  | lobby
  | running
  | complete
deriving DecidableEq, Repr

/-- `BattleRecord` from `packages/shared/src/types.ts`. -/
structure BattleRecord where
  battleId      : String
  createdAt     : Nat
  battleType    : BattleType
  agentIds      : List AgentId
  scorecards    : List BattleScorecard
  status        : BattleStatus
  winnerAgentId : Option AgentId
  resolveTxHash : Option String
deriving DecidableEq, Repr

/-- `getReceiptsByAgent` (`store.ts` lines 59–61). -/
def getReceiptsByAgent (agentId : AgentId) (receipts : List Receipt) :
    List Receipt :=
  receipts.filter (fun r => r.agentId = agentId)

/-- JavaScript `Array.slice(-n)`: the last `n` elements (all of them when
the list is shorter). -/
def lastN {α : Type} (n : Nat) (l : List α) : List α :=
  l.drop (l.length - n)

/-- The per-agent fulfilled-fraction over the agent's last 10 stored
receipts (`arena.ts` lines 242–245): `hist.length ? fulfilled/len : 0`. -/
def reliabilityRate (a : AgentId) (receipts : List Receipt) : ℚ :=
  let hist := lastN 10 (getReceiptsByAgent a receipts)
  if hist.length = 0 then 0
  else ((hist.filter
      (fun r => r.outcome.status = JobStatus.fulfilled)).length : ℚ)
    / hist.length

/-- The sort key `(card.metric ?? Infinity)` used by the comparators in
`determineWinner` (`arena.ts` lines 255–263): a missing metric sorts
last. -/
def metricKey (m : Option ℚ) : WithTop ℚ :=
  match m with
  | some q => (q : WithTop ℚ)
  | none => ⊤

/-- First element of `[...pool].sort((a, b) => key a − key b)`: JavaScript's
sort is stable and the comparator orders by `key` ascending, so index 0
holds the first element attaining the minimal key.  Modelled as the
source's selection written as a left fold that keeps the earliest strict
minimum. -/
def pickMinFold {α : Type} (key : α → WithTop ℚ) (l : List α) : Option α :=
  l.foldl (fun best c =>
    match best with
    | none => some c
    | some b => if key c < key b then some c else some b) none

/-- The reliability-branch fold of `determineWinner` (`arena.ts` lines
240–248): scan the scorecards in order, replacing the best candidate only
on a strictly greater rate (the source accumulates `{agentId, rate}`; the
rate entry always equals the rate of the kept card, so the fold is kept on
cards). -/
def pickMaxFold {α : Type} (rate : α → ℚ) (l : List α) : Option α :=
  l.foldl (fun best c =>
    match best with
    | none => some c
    | some b => if rate c > rate b then some c else some b) none

/-- Proof helper: `pickMinFold` once the accumulator is definitely
occupied. -/
def runMin {α : Type} (key : α → WithTop ℚ) (b : α) (l : List α) : α :=
  l.foldl (fun b c => if key c < key b then c else b) b

/-- Proof helper: `pickMaxFold` once the accumulator is definitely
occupied. -/
def runMax {α : Type} (rate : α → ℚ) (b : α) (l : List α) : α :=
  l.foldl (fun b c => if rate c > rate b then c else b) b

/-- The candidate pool of `determineWinner` (`arena.ts` lines 251–252):
the fulfilled scorecards, falling back to all scorecards when none
succeeded. -/
def fulfilledPool (cards : List BattleScorecard) : List BattleScorecard :=
  let fulfilled := cards.filter (fun c => c.status = CardStatus.fulfilled)
  if fulfilled = [] then cards else fulfilled

/-- `determineWinner` (`arena.ts` lines 233–267), over the battle's
scorecards and the receipt store (the `getBattle` lookup that supplies
`cards` is modelled at the call sites). -/
def determineWinner (battleType : BattleType) (cards : List BattleScorecard)
    (receipts : List Receipt) : Option AgentId :=
  match battleType with
  | .reliability =>
      (pickMaxFold (fun c => reliabilityRate c.agentId receipts) cards).map
        (·.agentId)
  | .speed =>
      (pickMinFold (fun c => metricKey c.latencyMs)
        (fulfilledPool cards)).map (·.agentId)
  | .gas =>
      (pickMinFold (fun c => metricKey c.gasUsedUsd)
        (fulfilledPool cards)).map (·.agentId)
  | .slippage =>
      let pool := fulfilledPool cards
      let withSlip := pool.filter (fun c => c.slippageBps.isSome)
      let src := if withSlip = [] then pool else withSlip
      (pickMinFold (fun c => metricKey c.slippageBps) src).map (·.agentId)

/-- The least key occurring in a pool (`⊤` for the empty pool). -/
def minimumKey {α : Type} (key : α → WithTop ℚ) (l : List α) : WithTop ℚ :=
  (l.map key).foldr min ⊤

/-- Winner determination as the specification words it: for `reliability`
the first-listed agent attaining the highest fulfilled-fraction; for
`speed`/`gas`/`slippage` the first candidate (fulfilled scorecards when
any exist, otherwise all; for slippage further restricted to cards that
report a slippage value when any do) attaining the minimal metric, a
missing metric sorting last. -/
def specDetermineWinner (battleType : BattleType)
    (cards : List BattleScorecard) (receipts : List Receipt) :
    Option AgentId :=
  match battleType with
  | .reliability =>
      (cards.find? (fun c => reliabilityRate c.agentId receipts
        = (cards.map (fun d => reliabilityRate d.agentId receipts)).foldr
            max 0)).map (·.agentId)
  | .speed =>
      ((fulfilledPool cards).find? (fun c => metricKey c.latencyMs
        = minimumKey (fun d => metricKey d.latencyMs)
            (fulfilledPool cards))).map (·.agentId)
  | .gas =>
      ((fulfilledPool cards).find? (fun c => metricKey c.gasUsedUsd
        = minimumKey (fun d => metricKey d.gasUsedUsd)
            (fulfilledPool cards))).map (·.agentId)
  | .slippage =>
      let pool := fulfilledPool cards
      let withSlip := pool.filter (fun c => c.slippageBps.isSome)
      let src := if withSlip = [] then pool else withSlip
      (src.find? (fun c => metricKey c.slippageBps
        = minimumKey (fun d => metricKey d.slippageBps) src)).map (·.agentId)

/-- A speed battle in which every agent failed (latencies 500 / 120 / 800
milliseconds). -/
def allFailedCards : List BattleScorecard :=
  [{ agentId := .safe, jobId := none, status := .failed,
     latencyMs := some 500, gasUsedUsd := none, slippageBps := none,
     quotedOut := none, verifiedByStream := none },
   { agentId := .fast, jobId := none, status := .failed,
     latencyMs := some 120, gasUsedUsd := none, slippageBps := none,
     quotedOut := none, verifiedByStream := none },
   { agentId := .cheap, jobId := none, status := .failed,
     latencyMs := some 800, gasUsedUsd := none, slippageBps := none,
     quotedOut := none, verifiedByStream := none }]

-- ─── The bounded in-memory store (apps/api/src/store.ts) ─────────────────────

/-- `MAX_BATTLES` (`store.ts` line 67). -/
def MAX_BATTLES : Nat := 100

/-- `MAX_STREAM_EVENTS` (`store.ts` line 18). -/
def MAX_STREAM_EVENTS : Nat := 5000

/-- A normalised `StreamEvent` (`packages/shared/src/types.ts`); `from` is a
Lean keyword, so that field is `fromAddr`. -/
structure StreamEvent where
  id           : String
  txHash       : String
  blockNumber  : Nat
  gasUsed      : String
  status       : String
  fromAddr     : String
  toAddr       : String
  contract     : String
  topic        : String
  timestamp    : Nat
  matchedJobId : Option String
  source       : Option String
deriving DecidableEq, Repr

/-- `addReceipt` (`store.ts` lines 55–57): a plain push, no eviction. -/
def addReceipt (receipt : Receipt) (receipts : List Receipt) : List Receipt :=
  receipts ++ [receipt]

/-- `addBattle` (`store.ts` lines 82–87): push, then
`splice(0, length − MAX_BATTLES)` when over capacity. -/
def addBattle (battle : BattleRecord) (battles : List BattleRecord) :
    List BattleRecord :=
  let l := battles ++ [battle]
  if l.length > MAX_BATTLES then l.drop (l.length - MAX_BATTLES) else l

/-- `addStreamEvent` (`store.ts` lines 126–131): push, then
`splice(0, length − MAX_STREAM_EVENTS)` when over capacity. -/
def addStreamEvent (event : StreamEvent) (streamEvents : List StreamEvent) :
    List StreamEvent :=
  let l := streamEvents ++ [event]
  if l.length > MAX_STREAM_EVENTS then l.drop (l.length - MAX_STREAM_EVENTS)
  else l

-- ─── Stream reconciliation (store.ts + webhook routes) ───────────────────────

/-- Replace the first element satisfying `p` by its image under `f`
(JavaScript's `array.find(...)` followed by an in-place mutation of the
found object). -/
def modifyFirst {α : Type} (p : α → Bool) (f : α → α) : List α → List α
  | [] => []
  | x :: xs => if p x then f x :: xs else x :: modifyFirst p f xs

/-- `updateBattleScorecard` (`store.ts` lines 93–102): patch the first
scorecard of the matching agent inside the first battle with the matching
id; silently a no-op when either is missing. -/
def updateBattleScorecard (battleId : String) (agentId : AgentId)
    (patch : BattleScorecard → BattleScorecard)
    (battles : List BattleRecord) : List BattleRecord :=
  modifyFirst (fun b => b.battleId = battleId)
    (fun b => { b with
      scorecards := modifyFirst (fun c => c.agentId = agentId) patch
        b.scorecards })
    battles

/-- `findReceiptByTxHash` (`store.ts` lines 142–147), returning the index of
the first receipt whose on-chain transaction hash matches
case-insensitively (the source returns the receipt object itself and
mutates it; the index makes the mutation explicit). -/
def findReceiptIdx (txHash : String) (receipts : List Receipt) :
    Option Nat :=
  receipts.findIdx?
    (fun r => r.onChain.map (fun oc => oc.txHash.toLower)
      = some txHash.toLower)

/-- The receipt patch of `applyStreamConfirmation` (`store.ts` lines
157–169): overwrite the on-chain evidence (when present — a matched receipt
always has it) and map the EVM status to the job status. -/
def applyStreamConfirmation (receipt : Receipt) (gasUsed : String)
    (evmStatus : String) (now : Nat) : Receipt :=
  let receipt1 :=
    match receipt.onChain with
    | some oc =>
        { receipt with onChain := some { oc with
            gasUsed     := gasUsed
            status      := if evmStatus = "success" then "success"
                           else "reverted"
            verifiedBy  := some "quicknode"
            confirmedAt := some now } }
    | none => receipt
  { receipt1 with outcome := { receipt1.outcome with
      status := if evmStatus = "success" then JobStatus.fulfilled
                else JobStatus.failed } }

/-- The receipt-and-battle store state reconciliation acts on. -/
structure StoreState where
  receipts : List Receipt
  battles  : List BattleRecord
deriving DecidableEq, Repr

/-- One normalised confirmation event applied to the store: the
`findReceiptByTxHash` + `applyStreamConfirmation` sequence of the webhook
handlers, including the scorecard propagation of `applyStreamConfirmation`
(`store.ts` lines 171–174).  No receipt matching the hash is a silent
no-op. -/
def reconcileStreamEvent (txHash gasUsed evmStatus : String) (now : Nat)
    (st : StoreState) : StoreState :=
  match findReceiptIdx txHash st.receipts with
  | none => st
  | some i =>
    match st.receipts[i]? with
    | none => st
    | some r =>
      { receipts := st.receipts.set i
          (applyStreamConfirmation r gasUsed evmStatus now)
        battles :=
          match r.battleId with
          | some bid => updateBattleScorecard bid r.agentId
              (fun c => { c with verifiedByStream := some true }) st.battles
          | none => st.battles }

-- ─── Concrete store inputs for witnesses ─────────────────────────────────────

/-- A minimal fulfilled receipt with on-chain evidence, used by witnesses. -/
def demoReceipt : Receipt :=
  { jobId := "job1", agentId := .fast, submittedAt := 0, completedAt := 1
    constraints := { maxSlippageBps := 50, maxGasUsd := 1, deadlineMs := 3000 }
    outcome := { status := .fulfilled, latencyMs := 200, gasUsedUsd := 1/2
                 slippageBps := 10, safetyFlags := [] }
    onChain := some { txHash := "0xAB", blockNumber := 7, chainId := 84532
                      gasUsed := "21000", status := "success"
                      verifiedBy := none, confirmedAt := none }
    userFeedback := none
    battleId := some "bt1" }

/-- The battle owning `demoReceipt`, with a pending scorecard for `fast`. -/
def demoBattle : BattleRecord :=
  { battleId := "bt1", createdAt := 0, battleType := .speed
    agentIds := [.safe, .fast]
    scorecards :=
      [{ agentId := .safe, jobId := none, status := .failed
         latencyMs := some 500, gasUsedUsd := none, slippageBps := none
         quotedOut := none, verifiedByStream := none },
       { agentId := .fast, jobId := some "job1", status := .fulfilled
         latencyMs := some 200, gasUsedUsd := none, slippageBps := none
         quotedOut := none, verifiedByStream := none }]
    status := .complete, winnerAgentId := some .fast, resolveTxHash := none }

/-- A store holding `demoReceipt` and `demoBattle`. -/
def demoStore : StoreState :=
  { receipts := [demoReceipt], battles := [demoBattle] }

/-- A minimal stream event used by the store-capacity witnesses. -/
def demoStreamEvent : StreamEvent :=
  { id := "0xAB0", txHash := "0xAB", blockNumber := 7, gasUsed := "21000"
    status := "success", fromAddr := "0xF", toAddr := "0xT"
    contract := "0xC", topic := "0xDEAD", timestamp := 0
    matchedJobId := none, source := some "dev" }

-- ─── The job pipeline (apps/api/src/lib/runJob.ts) ───────────────────────────

/-- `ExecutionMode` from `packages/shared/src/types.ts`. -/
inductive ExecutionMode where
  | sim
  | quote
  | real
deriving DecidableEq, Repr

/-- The collaborator calls `runJob` can make: the Uniswap quote
(`getSwapQuote`), the unsigned-tx build (`buildSwapTx`), the broadcast +
confirm (`sendTx`), and the agent simulation (`runAgent`). -/
inductive PipelineCall where
  | quoteCall
  | buildCall
  | sendCall
  | simulateCall
deriving DecidableEq, Repr

/-- Tags of the SSE lifecycle events `runJob` emits. -/
inductive JobEventTag where
  | queued
  | running
  | txSubmitted
  | txConfirmed
  | fulfilledEv
  | failedEv
deriving DecidableEq, Repr

/-- The terminal lifecycle tag for a receipt's outcome status
(`emitEvent(receipt.outcome.status, …)`). -/
def statusTag : JobStatus → JobEventTag
  | .fulfilled => .fulfilledEv
  | .failed => .failedEv

/-- `SwapParams` from `packages/shared/src/types.ts`. -/
structure SwapParamsM where
  inputToken  : String
  outputToken : String
  amountIn    : String
  chainId     : Nat
deriving DecidableEq, Repr

/-- The quote response fields the pipeline reads. -/
structure SwapQuoteM where
  quotedOut : String
  hopCount  : Nat
deriving DecidableEq, Repr

/-- The unsigned-tx response fields the pipeline reads. -/
structure SwapTxM where
  chainId : Nat
  gas     : Option String
deriving DecidableEq, Repr

/-- The broadcast/confirm response fields the pipeline reads. -/
structure SendResultM where
  txHash      : String
  blockNumber : Nat
  chainId     : Nat
  gasUsed     : String
  status      : String
deriving DecidableEq, Repr

/-- The pipeline's collaborators, as oracles: each field is the outcome the
corresponding external call would produce (`Except.error` models a thrown
exception).  `runAgent` never throws and always produces a receipt. -/
structure Collaborators where
  quoteResult  : Except String SwapQuoteM
  buildResult  : Except String SwapTxM
  sendResult   : Except String SendResultM
  agentReceipt : Receipt

/-- The observable outcome of one `runJob` execution: the lifecycle events
emitted (in order), the collaborator calls made (in order), the receipts
stored via `addReceipt`, and the returned/thrown result. -/
structure RunJobOutcome where
  events         : List JobEventTag
  calls          : List PipelineCall
  storedReceipts : List Receipt
  result         : Except String Receipt

/-- The fixed per-agent routing-policy slippage (`AGENT_POLICY` in
`agents.ts`): 50 / 150 / 30 bps. -/
def AGENT_POLICY_slippageBps : AgentId → ℚ
  | .safe => 50
  | .fast => 150
  | .cheap => 30

/-- The tail of `runJob` (`runJob.ts` lines 160–214): run the agent
simulation, attach the battle id, on-chain evidence and (in non-sim modes)
the policy slippage, store the receipt, and emit the terminal
fulfilled/failed event. -/
def finishJob (mode : ExecutionMode) (battleId : Option String)
    (calls : List PipelineCall) (events : List JobEventTag)
    (onChain : Option OnChainEvidence) (c : Collaborators) :
    RunJobOutcome :=
  let receipt0 := c.agentReceipt
  let receipt : Receipt := { receipt0 with
    battleId := if battleId.isSome then battleId else receipt0.battleId
    onChain  := if onChain.isSome then onChain else receipt0.onChain
    outcome  :=
      if mode ≠ .sim then
        { receipt0.outcome with
          slippageBps := AGENT_POLICY_slippageBps receipt0.agentId }
      else receipt0.outcome }
  { events         := events ++ [statusTag receipt.outcome.status]
    calls          := calls ++ [.simulateCall]
    storedReceipts := [receipt]
    result         := .ok receipt }

/-- `runJob` (`runJob.ts` lines 57–220).  Phase 2 (quote → build →
broadcast/confirm) runs only when swap parameters are present and the mode
is `quote` or `real`; the broadcast runs only in `real` mode.  A phase
failure emits its stage-tagged `failed` event, and the outer catch emits a
second generic `failed` event before rethrowing.  The agent simulation
always runs afterwards on the success path. -/
def runJob (mode : ExecutionMode) (swapParams : Option SwapParamsM)
    (battleId : Option String) (c : Collaborators) : RunJobOutcome :=
  let ev0 : List JobEventTag := [.queued, .running]
  if (mode = .quote ∨ mode = .real) ∧ swapParams.isSome then
    match c.quoteResult with
    | .error e =>
        { events := ev0 ++ [.failedEv, .failedEv], calls := [.quoteCall]
          storedReceipts := [], result := .error e }
    | .ok _ =>
      match c.buildResult with
      | .error e =>
          { events := ev0 ++ [.failedEv, .failedEv]
            calls := [.quoteCall, .buildCall]
            storedReceipts := [], result := .error e }
      | .ok _ =>
        if mode = .real then
          match c.sendResult with
          | .error e =>
              { events := ev0 ++ [.failedEv, .failedEv]
                calls := [.quoteCall, .buildCall, .sendCall]
                storedReceipts := [], result := .error e }
          | .ok sr =>
              finishJob mode battleId [.quoteCall, .buildCall, .sendCall]
                (ev0 ++ [.txSubmitted, .txConfirmed])
                (some { txHash := sr.txHash, blockNumber := sr.blockNumber
                        chainId := sr.chainId, gasUsed := sr.gasUsed
                        status := sr.status, verifiedBy := none
                        confirmedAt := none }) c
        else
          finishJob mode battleId [.quoteCall, .buildCall] ev0 none c
  else
    finishJob mode battleId [] ev0 none c

/-- Swap parameters used by the pipeline witnesses. -/
def demoSwapParams : SwapParamsM :=
  { inputToken := "0xIN", outputToken := "0xOUT", amountIn := "1000"
    chainId := 84532 }

/-- Collaborators whose calls all succeed, used by the pipeline
witnesses. -/
def demoCollaborators : Collaborators :=
  { quoteResult := .ok { quotedOut := "990", hopCount := 1 }
    buildResult := .ok { chainId := 84532, gas := some "21000" }
    sendResult  := .ok { txHash := "0xAB", blockNumber := 7
                         chainId := 84532, gasUsed := "21000"
                         status := "success" }
    agentReceipt := demoReceipt }

-- ─── POST /arena/battle — input validation (arena.ts) ────────────────────────

/-- `VALID_AGENTS` (`arena.ts` line 37), as the raw request strings the
handler compares against. -/
def VALID_AGENT_STRINGS : List String := ["safe", "fast", "cheap"]

/-- `VALID_TYPES` (`arena.ts` line 38). -/
def VALID_TYPE_STRINGS : List String :=
  ["speed", "gas", "reliability", "slippage"]

/-- The `as AgentId` cast of a raw id string, total on the validated
domain. -/
def parseAgentId : String → Option AgentId
  | "safe"  => some AgentId.safe
  | "fast"  => some AgentId.fast
  | "cheap" => some AgentId.cheap
  | _       => none

/-- The `as BattleType` cast of a raw battle-type string, total on the
validated domain. -/
def parseBattleType : String → Option BattleType
  | "speed"       => some BattleType.speed
  | "gas"         => some BattleType.gas
  | "reliability" => some BattleType.reliability
  | "slippage"    => some BattleType.slippage
  | _             => none

/-- The body of `POST /arena/battle` as the handler reads it (`arena.ts`
lines 278–281): `x402Gate` is whether `checkX402` returned a payment-gate
body, `battleType` is the string field (`none` when absent), `agentIds`
the raw array (`none` when the field is not an array), and `swapParams`
carries, for a present raw object, its `parseSwapParams` outcome (that
parser lives in `routes/jobs.ts` and is opaque to this route). -/
structure BattleRequest where
  x402Gate   : Bool
  battleType : Option String
  agentIds   : Option (List String)
  swapParams : Option (Except String SwapParamsM)

/-- The responses `POST /arena/battle` produces up to its `202`
acknowledgement. -/
inductive CreateBattleResponse where
  | paymentRequired
  | badRequest (msg : String)
  | accepted (battleId : String) (agentIds : List AgentId)
      (battleType : BattleType)
deriving DecidableEq, Repr

/-- The battle record object passed to `addBattle` (`arena.ts` lines
317–324). -/
def newBattleRecord (battleId : String) (now : Nat) (t : String)
    (rawIds : List String) : BattleRecord :=
  let ids := rawIds.filterMap parseAgentId
  { battleId      := battleId
    createdAt     := now
    battleType    := (parseBattleType t).getD BattleType.speed
    agentIds      := ids
    scorecards    := ids.map (fun a =>
      { agentId := a, jobId := none, status := CardStatus.pending
        latencyMs := none, gasUsedUsd := none, slippageBps := none
        quotedOut := none, verifiedByStream := none })
    status        := BattleStatus.running
    winnerAgentId := none
    resolveTxHash := none }

/-- `POST /arena/battle` (`arena.ts` lines 270–328) up to the `202`
response: the x402 gate, the `battleType` and `agentIds` validation, the
optional swap-parameter parse, and the `addBattle` insertion.  `battleId`
and `now` stand in for `uuidv4()` and `Date.now()`; the battle itself then
runs asynchronously.  The validation does not require the agent ids to be
distinct. -/
def createBattle (req : BattleRequest) (battleId : String) (now : Nat)
    (battles : List BattleRecord) :
    CreateBattleResponse × List BattleRecord :=
  if req.x402Gate then (CreateBattleResponse.paymentRequired, battles)
  else
    match req.battleType with
    | none => (CreateBattleResponse.badRequest "battleType invalid", battles)
    | some t =>
      if t = "" ∨ t ∉ VALID_TYPE_STRINGS then
        (CreateBattleResponse.badRequest "battleType invalid", battles)
      else
        match req.agentIds with
        | none =>
            (CreateBattleResponse.badRequest "agentIds invalid", battles)
        | some rawIds =>
          if rawIds.length < 2 ∨ rawIds.length > 3 then
            (CreateBattleResponse.badRequest "agentIds invalid", battles)
          else if ∃ a ∈ rawIds, a ∉ VALID_AGENT_STRINGS then
            (CreateBattleResponse.badRequest "unknown agentId", battles)
          else
            match req.swapParams with
            | some (Except.error e) =>
                (CreateBattleResponse.badRequest e, battles)
            | _ =>
              let b := newBattleRecord battleId now t rawIds
              ( CreateBattleResponse.accepted battleId b.agentIds
                  b.battleType
              , addBattle b battles )

-- ─── POST /paperbets/place — input validation (paper-bet routes) ─────────────

/-- JavaScript `String.prototype.trim`: strip whitespace from both ends
(an executable model of `String.trim`). -/
def jsTrim (s : String) : String :=
  ⟨((s.data.dropWhile Char.isWhitespace).reverse.dropWhile
      Char.isWhitespace).reverse⟩

/-- JavaScript `String.prototype.toLowerCase` (an executable model of
`String.toLower`). -/
def jsToLower (s : String) : String :=
  ⟨s.data.map Char.toLower⟩

/-- `MIN_BET` (paper-bet routes, line 26): 0.001 ETH. -/
def MIN_BET : ℚ := 1/1000

/-- `MAX_BET` (paper-bet routes, line 27): 10 ETH. -/
def MAX_BET : ℚ := 10

/-- `getBetsForBattle` (`paperBets.ts` lines 92–94). -/
def getBetsForBattle (battleId : String) (st : PaperState) :
    List PaperBet :=
  st.paperBets.filter (fun b => b.battleId = battleId)

/-- The body of `POST /paperbets/place` as the handler reads it: string
fields are `none` when absent or not strings, and `amountEth` is the
result of `Number(amountEth)` with `none` standing for `NaN`. -/
structure PlaceBetRequest where
  battleId  : Option String
  nickname  : Option String
  agentId   : Option String
  amountEth : Option ℚ

/-- The responses of `POST /paperbets/place`: `badRequest` is a 400,
`conflict` the 409 duplicate-nickname rejection, `created` the 201. -/
inductive PlaceBetResponse where
  | badRequest (msg : String)
  | conflict (existing : PaperBet)
  | created (bet : PaperBet)
deriving DecidableEq, Repr

/-- `POST /paperbets/place` (paper-bet routes, lines 30–64): the four
validation checks, the case-insensitive duplicate-nickname check, and the
`placeBet` call.  `freshId` and `now` stand in for `uuidv4()` and
`Date.now()`. -/
def placeBetRoute (req : PlaceBetRequest) (freshId now : Nat)
    (st : PaperState) : PlaceBetResponse × PaperState :=
  match req.battleId with
  | none => (PlaceBetResponse.badRequest "battleId is required", st)
  | some battleId =>
    if battleId = "" then
      (PlaceBetResponse.badRequest "battleId is required", st)
    else
      match req.nickname with
      | none =>
          (PlaceBetResponse.badRequest "nickname is required", st)
      | some nickname =>
        if jsTrim nickname = "" ∨ nickname.length > 40 then
          (PlaceBetResponse.badRequest "nickname is required", st)
        else
          match req.agentId.bind parseAgentId with
          | none =>
              (PlaceBetResponse.badRequest "agentId invalid", st)
          | some agentId =>
            match req.amountEth with
            | none =>
                (PlaceBetResponse.badRequest "amountEth out of range", st)
            | some amount =>
              if amount < MIN_BET ∨ amount > MAX_BET then
                (PlaceBetResponse.badRequest "amountEth out of range", st)
              else
                match (getBetsForBattle battleId st).find?
                    (fun b => jsToLower b.nickname
                      = jsToLower (jsTrim nickname)) with
                | some existing => (PlaceBetResponse.conflict existing, st)
                | none =>
                  let r := placeBet battleId (jsTrim nickname) agentId
                    amount freshId now st
                  (PlaceBetResponse.created r.1, r.2)

/-- The empty paper-bet module state. -/
def emptyPaper : PaperState :=
  { paperBets := [], paperResults := [], nicknameStats := [], events := [] }

/-- A well-formed placement request staking 0.005 ETH. -/
def goodPlaceReq : PlaceBetRequest :=
  { battleId := some "b1", nickname := some "bob", agentId := some "fast"
    amountEth := some (1/200) }

/-- A placement request staking 0.0005 ETH — positive, but below
`MIN_BET`. -/
def lowPlaceReq : PlaceBetRequest :=
  { battleId := some "b1", nickname := some "bob", agentId := some "fast"
    amountEth := some (1/2000) }

-- ─── List-sum helper lemmas ──────────────────────────────────────────────────

theorem sum_map_ite {α : Type} (p : α → Prop) [DecidablePred p]
    (f g : α → ℚ) (l : List α) :
    (l.map (fun x => if p x then f x else g x)).sum
      = ((l.filter (fun x => p x)).map f).sum
        + ((l.filter (fun x => ¬ p x)).map g).sum := by
  induction l with
  | nil => simp
  | cons a l ih =>
    by_cases h : p a <;> simp [h, ih] <;> ring

theorem sum_map_neg {α : Type} (f : α → ℚ) (l : List α) :
    (l.map (fun x => -(f x))).sum = -((l.map f).sum) := by
  induction l with
  | nil => simp
  | cons a l ih => simp [ih]; ring

theorem sum_map_div_mul {α : Type} (f : α → ℚ) (W L : ℚ) (l : List α) :
    (l.map (fun x => f x / W * L)).sum = (l.map f).sum / W * L := by
  induction l with
  | nil => simp
  | cons a l ih => simp [ih]; ring

/-- Splitting the total pool into the winners' and losers' stakes. -/
theorem sum_filter_split {α : Type} (p : α → Prop) [DecidablePred p]
    (f : α → ℚ) (l : List α) :
    ((l.filter (fun x => p x)).map f).sum
        + ((l.filter (fun x => ¬ p x)).map f).sum
      = (l.map f).sum := by
  have h := sum_map_ite p f f l
  simp only [ite_self] at h
  exact h.symm

/-- Core zero-sum lemma for a first-time resolution: when somebody backed
the winner and no winner's gain is altered by the 4-decimal rounding, the
computed profit/loss values sum to zero. -/
theorem resolveResults_pnl_sum (bid : String) (w : AgentId)
    (bets : List PaperBet) (W L : ℚ)
    (hWdef : W = ((bets.filter (fun b => b.agentId = w)).map (·.amountEth)).sum)
    (hLdef : L = (bets.map (·.amountEth)).sum - W)
    (hW : 0 < W)
    (hex : ∀ b ∈ bets.filter (fun b => b.agentId = w),
      r4 (b.amountEth / W * L) = b.amountEth / W * L) :
    ((resolveResults bid w bets).map (·.pnlEth)).sum = 0 := by
  have hmap : (resolveResults bid w bets).map (·.pnlEth)
      = bets.map (fun bet =>
          if bet.agentId = w then r4 (bet.amountEth / W * L)
          else -bet.amountEth) := by
    simp only [resolveResults, List.map_map]
    simp only [← hWdef, ← hLdef]
    refine List.map_congr_left (fun bet _ => ?_)
    dsimp only [Function.comp]
    by_cases hag : bet.agentId = w
    · rw [if_pos ⟨hag, hW⟩, if_pos hag]
    · rw [if_neg (fun hc => hag hc.1), if_neg hag]
  rw [hmap, sum_map_ite (fun b => b.agentId = w)
    (fun b => r4 (b.amountEth / W * L)) (fun b => -b.amountEth) bets]
  have hwsum : ((bets.filter (fun b => b.agentId = w)).map
      (fun b => r4 (b.amountEth / W * L))).sum = L := by
    rw [List.map_congr_left hex,
      sum_map_div_mul (fun b : PaperBet => b.amountEth) W L
        (bets.filter (fun b => b.agentId = w)),
      ← hWdef, div_self (ne_of_gt hW), one_mul]
  have hlsum : ((bets.filter (fun b => ¬ b.agentId = w)).map
      (fun b => -b.amountEth)).sum = -L := by
    have h1 := sum_map_neg (fun b : PaperBet => b.amountEth)
      (bets.filter (fun b => ¬ b.agentId = w))
    have h2 := sum_filter_split (fun b => b.agentId = w)
      (fun b : PaperBet => b.amountEth) bets
    have h3 : ((bets.filter (fun b => ¬ b.agentId = w)).map
        (fun b : PaperBet => b.amountEth)).sum = L := by
      rw [hLdef, hWdef, ← h2]; ring
    rw [h1, h3]
  rw [hwsum, hlsum]; ring

-- ─── C1: zero-sum of a resolved battle ───────────────────────────────────────

/-- C1 (counterexample): the claim "for every battle that `resolvePaperBets`
resolves (battle id, winning agent, at least one bet on the battle), the
returned `pnlEth` values sum to exactly zero" is false: a battle with one
0.001 ETH bet that is not on the winner resolves to a single result with
`pnlEth = −0.001`, summing to −0.001 ≠ 0. -/
theorem resolvePaperBets_zero_sum_counterexample :
    soloLossState.paperBets ≠ []
    ∧ (((resolvePaperBets "b" AgentId.fast soloLossState).1).map
        (·.pnlEth)).sum = -(1/1000)
    ∧ (((resolvePaperBets "b" AgentId.fast soloLossState).1).map
        (·.pnlEth)).sum ≠ 0 := by
  refine ⟨by simp [soloLossState], ?_, ?_⟩ <;>
    simp [resolvePaperBets, resolveResults, soloLossState]

/-- C1 (amended): for a first-time resolution in which at least one bet
backs the winner (`0 < W`) and every winning bet's gain
`(stake / winnerPool) × loserPool` is left unchanged by the 4-decimal
rounding `r4`, the returned `pnlEth` values sum to exactly zero.  (The
rounding hypothesis is forced: `r4` is applied to each winner's gain, and
the no-winner-backer case sums to `−totalPool`.) -/
theorem resolvePaperBets_zero_sum (bid : String) (w : AgentId)
    (st : PaperState) (W L : ℚ)
    (hnew : st.paperResults.filter (fun r => r.battleId = bid) = [])
    (hWdef : W = (((st.paperBets.filter (fun b => b.battleId = bid)).filter
      (fun b => b.agentId = w)).map (·.amountEth)).sum)
    (hLdef : L = ((st.paperBets.filter (fun b => b.battleId = bid)).map
      (·.amountEth)).sum - W)
    (hW : 0 < W)
    (hex : ∀ b ∈ (st.paperBets.filter (fun b => b.battleId = bid)).filter
      (fun b => b.agentId = w),
      r4 (b.amountEth / W * L) = b.amountEth / W * L) :
    (((resolvePaperBets bid w st).1).map (·.pnlEth)).sum = 0 := by
  have hcore := resolveResults_pnl_sum bid w
    (st.paperBets.filter (fun b => b.battleId = bid)) W L hWdef hLdef hW hex
  by_cases hb : st.paperBets.filter (fun b => b.battleId = bid) = []
  · simp [resolvePaperBets, hnew, hb]
  · simp only [resolvePaperBets, hnew]
    rw [if_neg (by simp), if_neg hb]
    exact hcore

/-- C1 (witness): the spec's worked example (0.01 / 0.02 / 0.03, winner
`fast`) satisfies the hypotheses, and its profit/loss values sum to zero. -/
theorem resolvePaperBets_zero_sum_witness :
    (((resolvePaperBets "d" AgentId.fast demoState).1).map (·.pnlEth)).sum
      = 0 :=
  resolvePaperBets_zero_sum "d" AgentId.fast demoState (1/50) (1/25)
    (by simp [demoState])
    (by simp [demoState])
    (by simp [demoState]; norm_num)
    (by norm_num)
    (by
      simp only [demoState]
      intro b hb
      simp at hb
      subst hb
      norm_num [r4, jsRound, Rat.floor_def])

-- ─── C2: the per-bet payout formula ──────────────────────────────────────────

/-- C2 (counterexample): the claim states the exact formulas
`pnlEth = (stake / winnerPool) × loserPool` for winners and
`roiPct = pnlEth / stake × 100`, but the code rounds the winner's gain to
4 decimals and the ROI to 1 decimal.  For stakes 0.003 and 0.005 on the
winner and 0.001 on a loser: the first winner's gain is
`0.003/0.008 × 0.001 = 0.000375`, stored as `0.0004 = 1/2500`, and its ROI
is `0.0004/0.003 × 100 = 40/3`, stored as `13.3`. -/
theorem resolvePaperBets_payout_formula_counterexample :
    ((resolveResults "b" AgentId.fast roundingBets).map (·.pnlEth)).head?
      = some (1/2500)
    ∧ (1/2500 : ℚ) ≠ 3/1000 / (8/1000) * (1/1000)
    ∧ ((resolveResults "b" AgentId.fast roundingBets).map (·.roiPct)).head?
      = some (133/10)
    ∧ (133/10 : ℚ) ≠ 1/2500 / (3/1000) * 100 := by
  refine ⟨?_, by norm_num, ?_, by norm_num⟩ <;>
    · simp [resolveResults, roundingBets]
      norm_num [r4, r1, jsRound, Rat.floor_def]

/-- C2 (amended): on a first-time resolution with winner pool `W` and loser
pool `L`, every bet not on the winner (and every bet at all when `W = 0`,
in which case no bet has positive PnL) has `pnlEth = −stake`; every bet on
the winner has `pnlEth = (stake / W) × L` rounded to 4 decimals; and every
result's `roiPct` is `pnlEth / stake × 100` rounded to 1 decimal, with the
result mirroring the bet's stake. -/
theorem resolvePaperBets_payout_formula (bid : String) (w : AgentId)
    (bets : List PaperBet) (W L : ℚ)
    (hWdef : W = ((bets.filter (fun b => b.agentId = w)).map (·.amountEth)).sum)
    (hLdef : L = (bets.map (·.amountEth)).sum - W)
    (i : Nat) (bet : PaperBet) (r : PaperBetResult)
    (hbet : bets[i]? = some bet)
    (hres : (resolveResults bid w bets)[i]? = some r) :
    (r.won = true ↔ bet.agentId = w)
    ∧ (bet.agentId ≠ w → r.pnlEth = -bet.amountEth)
    ∧ (¬ 0 < W → r.pnlEth = -bet.amountEth)
    ∧ (bet.agentId = w → 0 < W → r.pnlEth = r4 (bet.amountEth / W * L))
    ∧ r.roiPct = r1 (r.pnlEth / bet.amountEth * 100)
    ∧ r.amountEth = bet.amountEth
    ∧ r.battleId = bid ∧ r.nickname = bet.nickname
    ∧ r.agentId = bet.agentId ∧ r.betId = bet.id := by
  simp only [resolveResults] at hres
  simp only [← hWdef, ← hLdef] at hres
  rw [List.getElem?_map, hbet, Option.map_some'] at hres
  have hr := (Option.some.injEq _ _).mp hres
  subst hr
  dsimp only []
  by_cases hag : bet.agentId = w
  · by_cases h0 : 0 < W
    · rw [if_pos ⟨hag, h0⟩]
      exact ⟨by simp [hag], fun hc => absurd hag hc, fun hc => absurd h0 hc,
        fun _ _ => rfl, rfl, rfl, rfl, rfl, rfl, rfl⟩
    · rw [if_neg (fun hc => h0 hc.2)]
      exact ⟨by simp [hag], fun hc => absurd hag hc, fun _ => rfl,
        fun _ hc => absurd hc h0, rfl, rfl, rfl, rfl, rfl, rfl⟩
  · rw [if_neg (fun hc => hag hc.1)]
    exact ⟨by simp [hag], fun _ => rfl, fun _ => rfl,
      fun hc => absurd hc hag, rfl, rfl, rfl, rfl, rfl, rfl⟩

/-- C2 (witness): in the spec's example (0.01 on `safe`, 0.02 on `fast`,
0.03 on `cheap`, winner `fast`), `fast`'s backer has PnL
`r4((0.02/0.02) × 0.04) = 0.04` and ROI `r1(0.04/0.02 × 100) = 200%`. -/
theorem resolvePaperBets_payout_formula_witness :
    demoWinnerResult.pnlEth = r4 ((1/50 : ℚ) / (1/50) * (1/25))
    ∧ demoWinnerResult.roiPct
      = r1 (demoWinnerResult.pnlEth / (1/50) * 100)
    ∧ demoWinnerResult.pnlEth = 1/25
    ∧ demoWinnerResult.roiPct = 200 := by
  have h := resolvePaperBets_payout_formula "d" AgentId.fast
    demoState.paperBets (1/50) (1/25)
    (by simp [demoState]) (by simp [demoState]; norm_num) 1
    ⟨1, "d", "bob", AgentId.fast, 1/50, 0⟩ demoWinnerResult
    (by simp [demoState])
    (by
      simp [resolveResults, demoState, demoWinnerResult]
      norm_num [r4, r1, jsRound, Rat.floor_def])
  refine ⟨h.2.2.2.1 rfl (by norm_num), h.2.2.2.2.1, ?_, ?_⟩
  · rw [h.2.2.2.1 rfl (by norm_num)]
    norm_num [r4, jsRound, Rat.floor_def]
  · rw [h.2.2.2.2.1]
    have hp : demoWinnerResult.pnlEth = 1/25 := by
      rw [h.2.2.2.1 rfl (by norm_num)]
      norm_num [r4, jsRound, Rat.floor_def]
    rw [hp]
    norm_num [r1, jsRound, Rat.floor_def]

-- ─── C3: idempotence of resolution ───────────────────────────────────────────

/-- Every result `resolveResults` returns carries the battle id it was
called with. -/
theorem resolveResults_battleId (bid : String) (w : AgentId)
    (bets : List PaperBet) :
    ∀ r ∈ resolveResults bid w bets, r.battleId = bid := by
  intro r hr
  simp only [resolveResults, List.mem_map] at hr
  obtain ⟨bet, _, rfl⟩ := hr
  rfl

/-- C3: once a battle has results (the first call returned a non-empty
result list), calling `resolvePaperBets` again with any winner argument
returns exactly the previously computed results and leaves the whole module
state — bets, results, every per-nickname aggregate, and the event log —
unchanged. -/
theorem resolvePaperBets_idempotent (bid : String) (w w' : AgentId)
    (st : PaperState)
    (h : (resolvePaperBets bid w st).1 ≠ []) :
    resolvePaperBets bid w' (resolvePaperBets bid w st).2
      = resolvePaperBets bid w st := by
  by_cases he : st.paperResults.filter (fun r => r.battleId = bid) ≠ []
  · have h1 : resolvePaperBets bid w st
        = (st.paperResults.filter (fun r => r.battleId = bid), st) := by
      simp only [resolvePaperBets]
      rw [if_pos he]
    have h2 : resolvePaperBets bid w' st
        = (st.paperResults.filter (fun r => r.battleId = bid), st) := by
      simp only [resolvePaperBets]
      rw [if_pos he]
    rw [h1]
    exact h2
  · push_neg at he
    by_cases hb : st.paperBets.filter (fun b => b.battleId = bid) = []
    · exfalso
      apply h
      simp only [resolvePaperBets]
      rw [if_neg (by simpa using he), if_pos hb]
    · have h1 : resolvePaperBets bid w st
          = (resolveResults bid w
              (st.paperBets.filter (fun b => b.battleId = bid)),
             { st with
               paperResults := st.paperResults
                 ++ resolveResults bid w
                     (st.paperBets.filter (fun b => b.battleId = bid))
               nicknameStats := (resolveResults bid w
                 (st.paperBets.filter (fun b => b.battleId = bid))).foldl
                   updateStats st.nicknameStats
               events := st.events ++ [.paperbetResolved] }) := by
        simp only [resolvePaperBets]
        rw [if_neg (by simpa using he), if_neg hb]
      have hres : (resolveResults bid w
          (st.paperBets.filter (fun b => b.battleId = bid))) ≠ [] := by
        intro hc
        apply h
        rw [h1, hc]
      have hfil : (st.paperResults
            ++ resolveResults bid w
                (st.paperBets.filter (fun b => b.battleId = bid))).filter
              (fun r => r.battleId = bid)
          = resolveResults bid w
              (st.paperBets.filter (fun b => b.battleId = bid)) := by
        rw [List.filter_append, he, List.nil_append]
        exact List.filter_eq_self.mpr
          (fun r hr => by
            simpa using resolveResults_battleId bid w _ r hr)
      rw [h1]
      have h2 : resolvePaperBets bid w'
          ({ st with
             paperResults := st.paperResults
               ++ resolveResults bid w
                   (st.paperBets.filter (fun b => b.battleId = bid))
             nicknameStats := (resolveResults bid w
               (st.paperBets.filter (fun b => b.battleId = bid))).foldl
                 updateStats st.nicknameStats
             events := st.events ++ [.paperbetResolved] } : PaperState)
          = ((st.paperResults
              ++ resolveResults bid w
                  (st.paperBets.filter (fun b => b.battleId = bid))).filter
                (fun r => r.battleId = bid),
             { st with
               paperResults := st.paperResults
                 ++ resolveResults bid w
                     (st.paperBets.filter (fun b => b.battleId = bid))
               nicknameStats := (resolveResults bid w
                 (st.paperBets.filter (fun b => b.battleId = bid))).foldl
                   updateStats st.nicknameStats
               events := st.events ++ [.paperbetResolved] }) := by
        simp only [resolvePaperBets]
        rw [if_pos (by rw [hfil]; exact hres)]
      exact h2.trans (by rw [hfil])

/-- C3 (witness): resolving the spec's example battle twice, the second
call (with a different winner argument) returns the first call's results
and state unchanged. -/
theorem resolvePaperBets_idempotent_witness :
    resolvePaperBets "d" AgentId.safe
        (resolvePaperBets "d" AgentId.fast demoState).2
      = resolvePaperBets "d" AgentId.fast demoState :=
  resolvePaperBets_idempotent "d" AgentId.fast AgentId.safe demoState
    (by simp [resolvePaperBets, resolveResults, demoState])

-- ─── C4: composite score bounds and weighted-sum shape ───────────────────────

theorem sum_le_length_mul (l : List ℚ) (b : ℚ) (h : ∀ x ∈ l, x ≤ b) :
    l.sum ≤ l.length * b := by
  induction l with
  | nil => simp
  | cons a l ih =>
    have h1 := ih (fun x hx => h x (List.mem_cons_of_mem a hx))
    have h2 := h a (List.mem_cons_self a l)
    simp only [List.sum_cons, List.length_cons]
    push_cast
    nlinarith

theorem length_mul_le_sum (l : List ℚ) (a : ℚ) (h : ∀ x ∈ l, a ≤ x) :
    l.length * a ≤ l.sum := by
  induction l with
  | nil => simp
  | cons x l ih =>
    have h1 := ih (fun y hy => h y (List.mem_cons_of_mem x hy))
    have h2 := h x (List.mem_cons_self x l)
    simp only [List.sum_cons, List.length_cons]
    push_cast
    nlinarith

/-- Average of a non-empty list of rationals lying in `[a, b]`. -/
theorem avg_bounds (l : List ℚ) (hl : l ≠ []) (a b : ℚ)
    (h : ∀ x ∈ l, a ≤ x ∧ x ≤ b) :
    a ≤ l.sum / l.length ∧ l.sum / l.length ≤ b := by
  have hn : (0 : ℚ) < l.length := by
    have := List.length_pos.mpr hl
    exact_mod_cast this
  constructor
  · rw [le_div_iff₀ hn]
    have := length_mul_le_sum l a (fun x hx => (h x hx).1)
    linarith
  · rw [div_le_iff₀ hn]
    have := sum_le_length_mul l b (fun x hx => (h x hx).2)
    linarith

theorem scoreReliability_bounds (receipts : List Receipt) :
    0 ≤ scoreReliability receipts ∧ scoreReliability receipts ≤ 100 := by
  unfold scoreReliability
  by_cases h : receipts = []
  · simp [h]
  · rw [if_neg h]
    have hn : (0 : ℚ) < receipts.length := by
      have := List.length_pos.mpr h
      exact_mod_cast this
    have hk : ((receipts.filter
        (fun r => r.outcome.status = JobStatus.fulfilled)).length : ℚ)
        ≤ receipts.length := by
      exact_mod_cast List.length_filter_le _ receipts
    constructor
    · positivity
    · have h1 : ((receipts.filter
          (fun r => r.outcome.status = JobStatus.fulfilled)).length : ℚ)
          / receipts.length ≤ 1 := by
        rw [div_le_one hn]; exact hk
      nlinarith

theorem scoreSafety_bounds (receipts : List Receipt) :
    0 ≤ scoreSafety receipts ∧ scoreSafety receipts ≤ 100 := by
  unfold scoreSafety
  by_cases h : receipts = []
  · simp [h]
  · rw [if_neg h]
    refine avg_bounds _ (by simpa using h) 0 100 ?_
    intro x hx
    simp only [List.mem_map] at hx
    obtain ⟨r, -, rfl⟩ := hx
    constructor
    · exact le_max_left 0 _
    · apply max_le (by norm_num)
      have hm1 : (0:ℚ) ≤ min ((r.outcome.safetyFlags.length : ℚ) * 10) 50 :=
        le_min (by positivity) (by norm_num)
      have hm2 : (0:ℚ) ≤ min
          (max 0 (r.outcome.slippageBps - r.constraints.maxSlippageBps)
            / 100 * 15) 30 :=
        le_min (by positivity) (by norm_num)
      linarith

theorem scoreSpeed_bounds (receipts : List Receipt) :
    0 ≤ scoreSpeed receipts ∧ scoreSpeed receipts ≤ 100 := by
  unfold scoreSpeed
  by_cases h : receipts = []
  · simp [h]
  · rw [if_neg h]
    refine avg_bounds _ (by simpa using h) 0 100 ?_
    intro x hx
    simp only [List.mem_map] at hx
    obtain ⟨r, -, rfl⟩ := hx
    by_cases h1 : r.outcome.latencyMs / r.constraints.deadlineMs ≤ 1
    · rw [if_pos h1]; norm_num
    · rw [if_neg h1]
      by_cases h3 : r.outcome.latencyMs / r.constraints.deadlineMs ≥ 3
      · rw [if_pos h3]; norm_num
      · rw [if_neg h3]
        push_neg at h1 h3
        refine ⟨le_max_left 0 _, max_le (by norm_num) (by nlinarith)⟩

theorem scoreEconomics_bounds (receipts : List Receipt) :
    0 ≤ scoreEconomics receipts ∧ scoreEconomics receipts ≤ 100 := by
  unfold scoreEconomics
  by_cases h : receipts = []
  · simp [h]
  · rw [if_neg h]
    refine avg_bounds _ (by simpa using h) 0 100 ?_
    intro x hx
    simp only [List.mem_map] at hx
    obtain ⟨r, -, rfl⟩ := hx
    by_cases h1 : r.outcome.gasUsedUsd / r.constraints.maxGasUsd ≤ 1
    · rw [if_pos h1]; norm_num
    · rw [if_neg h1]
      by_cases h3 : r.outcome.gasUsedUsd / r.constraints.maxGasUsd ≥ 2
      · rw [if_pos h3]; norm_num
      · rw [if_neg h3]
        push_neg at h1 h3
        refine ⟨le_max_left 0 _, max_le (by norm_num) (by nlinarith)⟩

theorem scoreFeedback_bounds (receipts : List Receipt)
    (hfb : ∀ r ∈ receipts, ∀ q, r.userFeedback = some q → 1 ≤ q ∧ q ≤ 5) :
    0 ≤ scoreFeedback receipts ∧ scoreFeedback receipts ≤ 100 := by
  unfold scoreFeedback
  by_cases h : receipts.filter (fun r => r.userFeedback.isSome) = []
  · rw [if_pos h]; norm_num
  · rw [if_neg h]
    have havg := avg_bounds
      ((receipts.filter (fun r => r.userFeedback.isSome)).map
        (fun r => r.userFeedback.getD 0))
      (by simpa using h) 1 5 ?_
    · rw [List.length_map] at havg
      constructor
      · nlinarith [havg.1]
      · nlinarith [havg.2]
    · intro x hx
      simp only [List.mem_map] at hx
      obtain ⟨r, hr, rfl⟩ := hx
      have hmem := List.mem_filter.mp hr
      obtain ⟨q, hq⟩ := Option.isSome_iff_exists.mp (by simpa using hmem.2)
      have := hfb r hmem.1 q hq
      rw [hq]
      simpa using this

theorem r1_bounds (x : ℚ) (h0 : 0 ≤ x) (h1 : x ≤ 100) :
    0 ≤ r1 x ∧ r1 x ≤ 100 := by
  unfold r1 jsRound
  constructor
  · have : (0:ℤ) ≤ ⌊x * 10 + 1/2⌋ := Int.floor_nonneg.mpr (by linarith)
    have h2 : (0:ℚ) ≤ (⌊x * 10 + 1/2⌋ : ℚ) := by exact_mod_cast this
    linarith
  · have hle : ⌊x * 10 + 1/2⌋ ≤ ⌊(2001 : ℚ)/2⌋ :=
      Int.floor_le_floor (by linarith)
    have hval : ⌊(2001 : ℚ)/2⌋ = 1000 := by norm_num [Rat.floor_def]
    have h2 : ((⌊x * 10 + 1/2⌋ : ℤ) : ℚ) ≤ 1000 := by
      exact_mod_cast hval ▸ hle
    linarith

/-- C4: for every receipt list (over the domain of receipts the system
creates: positive deadline and gas budget, ratings in 1–5), the composite
score is in `[0, 100]`, equals the fixed-weight sum
(0.30/0.25/0.20/0.15/0.10, summing to 1) of the five sub-scores rounded to
one decimal, and each reported sub-score is the rounded raw sub-score. -/
theorem computeAQI_spec (receipts : List Receipt)
    (_hdl : ∀ r ∈ receipts, 0 < r.constraints.deadlineMs)
    (_hgas : ∀ r ∈ receipts, 0 < r.constraints.maxGasUsd)
    (hfb : ∀ r ∈ receipts, ∀ q, r.userFeedback = some q → 1 ≤ q ∧ q ≤ 5) :
    0 ≤ (computeAQI receipts).score
    ∧ (computeAQI receipts).score ≤ 100
    ∧ (computeAQI receipts).score
      = r1 (scoreReliability receipts * (30/100)
          + scoreSafety receipts * (25/100)
          + scoreSpeed receipts * (20/100)
          + scoreEconomics receipts * (15/100)
          + scoreFeedback receipts * (10/100))
    ∧ (computeAQI receipts).components
      = { reliability := r1 (scoreReliability receipts)
          safety      := r1 (scoreSafety receipts)
          speed       := r1 (scoreSpeed receipts)
          economics   := r1 (scoreEconomics receipts)
          feedback    := r1 (scoreFeedback receipts) }
    ∧ ((30:ℚ)/100) + 25/100 + 20/100 + 15/100 + 10/100 = 1 := by
  have b1 := scoreReliability_bounds receipts
  have b2 := scoreSafety_bounds receipts
  have b3 := scoreSpeed_bounds receipts
  have b4 := scoreEconomics_bounds receipts
  have b5 := scoreFeedback_bounds receipts hfb
  have hsum0 : 0 ≤ scoreReliability receipts * (30/100)
      + scoreSafety receipts * (25/100)
      + scoreSpeed receipts * (20/100)
      + scoreEconomics receipts * (15/100)
      + scoreFeedback receipts * (10/100) := by nlinarith
  have hsum1 : scoreReliability receipts * (30/100)
      + scoreSafety receipts * (25/100)
      + scoreSpeed receipts * (20/100)
      + scoreEconomics receipts * (15/100)
      + scoreFeedback receipts * (10/100) ≤ 100 := by nlinarith
  have hr := r1_bounds _ hsum0 hsum1
  exact ⟨hr.1, hr.2, rfl, rfl, by norm_num⟩

-- ─── C5: first-extremum characterisation of the winner folds ─────────────────

theorem foldl_min_le {α : Type} (key : α → WithTop ℚ) :
    ∀ (t : List α) (m : WithTop ℚ),
      t.foldl (fun m x => min m (key x)) m ≤ m := by
  intro t
  induction t with
  | nil => intro m; simp
  | cons c t ih =>
    intro m
    calc (c :: t).foldl (fun m x => min m (key x)) m
        = t.foldl (fun m x => min m (key x)) (min m (key c)) := rfl
      _ ≤ min m (key c) := ih _
      _ ≤ m := min_le_left _ _

theorem foldl_min_eq_foldr {α : Type} (key : α → WithTop ℚ) :
    ∀ (t : List α) (m : WithTop ℚ),
      t.foldl (fun m x => min m (key x)) m
        = min m ((t.map key).foldr min ⊤) := by
  intro t
  induction t with
  | nil => intro m; simp
  | cons c t ih =>
    intro m
    show t.foldl _ (min m (key c)) = _
    rw [ih]
    simp only [List.map_cons, List.foldr_cons]
    rw [min_assoc]

theorem foldl_opt_some_min {α : Type} (key : α → WithTop ℚ) :
    ∀ (t : List α) (b : α),
      t.foldl (fun best c =>
        match best with
        | none => some c
        | some b => if key c < key b then some c else some b) (some b)
      = some (runMin key b t) := by
  intro t
  induction t with
  | nil => intro b; rfl
  | cons c t ih =>
    intro b
    have hrun : runMin key b (c :: t)
        = runMin key (if key c < key b then c else b) t := by
      simp only [runMin, List.foldl_cons]
    rw [hrun]
    show t.foldl _ (if key c < key b then some c else some b) = _
    by_cases h : key c < key b
    · rw [if_pos h, if_pos h, ih]
    · rw [if_neg h, if_neg h, ih]

theorem runMin_find {α : Type} (key : α → WithTop ℚ) :
    ∀ (t : List α) (a : α),
      (a :: t).find? (fun c =>
          key c = t.foldl (fun m x => min m (key x)) (key a))
        = some (runMin key a t) := by
  intro t
  induction t with
  | nil =>
    intro a
    simp [runMin]
  | cons c t ih =>
    intro a
    by_cases hc : key c < key a
    · have hM : (c :: t).foldl (fun m x => min m (key x)) (key a)
          = t.foldl (fun m x => min m (key x)) (key c) := by
        simp only [List.foldl_cons]
        rw [min_eq_right (le_of_lt hc)]
      have hrun : runMin key a (c :: t) = runMin key c t := by
        simp only [runMin, List.foldl_cons]
        rw [if_pos hc]
      rw [hM, hrun]
      have hMle : t.foldl (fun m x => min m (key x)) (key c) ≤ key c :=
        foldl_min_le key t (key c)
      have hne : ¬ (key a
          = t.foldl (fun m x => min m (key x)) (key c)) := by
        intro he
        have h1 : key a ≤ key c := he ▸ hMle
        exact absurd (lt_of_lt_of_le hc h1) (lt_irrefl _)
      rw [List.find?_cons_of_neg _ (by simpa using hne)]
      exact ih c
    · push_neg at hc
      have hM : (c :: t).foldl (fun m x => min m (key x)) (key a)
          = t.foldl (fun m x => min m (key x)) (key a) := by
        simp only [List.foldl_cons]
        rw [min_eq_left hc]
      have hrun : runMin key a (c :: t) = runMin key a t := by
        simp only [runMin, List.foldl_cons]
        rw [if_neg (not_lt.mpr hc)]
      rw [hM, hrun]
      have hMle : t.foldl (fun m x => min m (key x)) (key a) ≤ key a :=
        foldl_min_le key t (key a)
      by_cases ha : key a = t.foldl (fun m x => min m (key x)) (key a)
      · rw [List.find?_cons_of_pos _ (by simpa using ha)]
        have h2 := ih a
        rw [List.find?_cons_of_pos _ (by simpa using ha)] at h2
        exact h2
      · rw [List.find?_cons_of_neg _ (by simpa using ha)]
        have hMc : ¬ (key c
            = t.foldl (fun m x => min m (key x)) (key a)) := by
          intro he
          apply ha
          exact le_antisymm (he ▸ hc) hMle
        rw [List.find?_cons_of_neg _ (by simpa using hMc)]
        have h2 := ih a
        rw [List.find?_cons_of_neg _ (by simpa using ha)] at h2
        exact h2

theorem pickMinFold_eq_find {α : Type} (key : α → WithTop ℚ) (l : List α) :
    pickMinFold key l = l.find? (fun c => key c = minimumKey key l) := by
  cases l with
  | nil => rfl
  | cons a t =>
    have h1 : pickMinFold key (a :: t) = some (runMin key a t) := by
      simp only [pickMinFold, List.foldl_cons]
      exact foldl_opt_some_min key t a
    have h2 : minimumKey key (a :: t)
        = t.foldl (fun m x => min m (key x)) (key a) := by
      rw [foldl_min_eq_foldr key t (key a)]
      simp only [minimumKey, List.map_cons, List.foldr_cons]
    rw [h1]
    simp only [h2]
    exact (runMin_find key t a).symm

theorem foldl_max_ge {α : Type} (rate : α → ℚ) :
    ∀ (t : List α) (m : ℚ),
      m ≤ t.foldl (fun m x => max m (rate x)) m := by
  intro t
  induction t with
  | nil => intro m; simp
  | cons c t ih =>
    intro m
    calc m ≤ max m (rate c) := le_max_left _ _
      _ ≤ t.foldl (fun m x => max m (rate x)) (max m (rate c)) := ih _
      _ = (c :: t).foldl (fun m x => max m (rate x)) m := rfl

theorem foldl_max_eq_foldr {α : Type} (rate : α → ℚ) :
    ∀ (t : List α) (m : ℚ), 0 ≤ m → (∀ x ∈ t, 0 ≤ rate x) →
      t.foldl (fun m x => max m (rate x)) m
        = max m ((t.map rate).foldr max 0) := by
  intro t
  induction t with
  | nil =>
    intro m hm _
    simp only [List.map_nil, List.foldr_nil]
    exact (max_eq_left hm).symm
  | cons c t ih =>
    intro m hm hr
    show t.foldl _ (max m (rate c)) = _
    rw [ih (max m (rate c))
      (le_trans hm (le_max_left _ _))
      (fun x hx => hr x (List.mem_cons_of_mem c hx))]
    simp only [List.map_cons, List.foldr_cons]
    rw [max_assoc]

theorem foldl_opt_some_max {α : Type} (rate : α → ℚ) :
    ∀ (t : List α) (b : α),
      t.foldl (fun best c =>
        match best with
        | none => some c
        | some b => if rate c > rate b then some c else some b) (some b)
      = some (runMax rate b t) := by
  intro t
  induction t with
  | nil => intro b; rfl
  | cons c t ih =>
    intro b
    have hrun : runMax rate b (c :: t)
        = runMax rate (if rate c > rate b then c else b) t := by
      simp only [runMax, List.foldl_cons]
    rw [hrun]
    show t.foldl _ (if rate c > rate b then some c else some b) = _
    by_cases h : rate c > rate b
    · rw [if_pos h, if_pos h, ih]
    · rw [if_neg h, if_neg h, ih]

theorem runMax_find {α : Type} (rate : α → ℚ) :
    ∀ (t : List α) (a : α),
      (a :: t).find? (fun c =>
          rate c = t.foldl (fun m x => max m (rate x)) (rate a))
        = some (runMax rate a t) := by
  intro t
  induction t with
  | nil =>
    intro a
    simp [runMax]
  | cons c t ih =>
    intro a
    by_cases hc : rate c > rate a
    · have hM : (c :: t).foldl (fun m x => max m (rate x)) (rate a)
          = t.foldl (fun m x => max m (rate x)) (rate c) := by
        simp only [List.foldl_cons]
        rw [max_eq_right (le_of_lt hc)]
      have hrun : runMax rate a (c :: t) = runMax rate c t := by
        simp only [runMax, List.foldl_cons]
        rw [if_pos hc]
      rw [hM, hrun]
      have hMge : rate c ≤ t.foldl (fun m x => max m (rate x)) (rate c) :=
        foldl_max_ge rate t (rate c)
      have hne : ¬ (rate a
          = t.foldl (fun m x => max m (rate x)) (rate c)) := by
        intro he
        have h1 : rate c ≤ rate a := he ▸ hMge
        exact absurd (lt_of_lt_of_le hc h1) (lt_irrefl _)
      rw [List.find?_cons_of_neg _ (by simpa using hne)]
      exact ih c
    · push_neg at hc
      have hM : (c :: t).foldl (fun m x => max m (rate x)) (rate a)
          = t.foldl (fun m x => max m (rate x)) (rate a) := by
        simp only [List.foldl_cons]
        rw [max_eq_left hc]
      have hrun : runMax rate a (c :: t) = runMax rate a t := by
        simp only [runMax, List.foldl_cons]
        rw [if_neg (not_lt.mpr hc)]
      rw [hM, hrun]
      have hMge : rate a ≤ t.foldl (fun m x => max m (rate x)) (rate a) :=
        foldl_max_ge rate t (rate a)
      by_cases ha : rate a = t.foldl (fun m x => max m (rate x)) (rate a)
      · rw [List.find?_cons_of_pos _ (by simpa using ha)]
        have h2 := ih a
        rw [List.find?_cons_of_pos _ (by simpa using ha)] at h2
        exact h2
      · rw [List.find?_cons_of_neg _ (by simpa using ha)]
        have hMc : ¬ (rate c
            = t.foldl (fun m x => max m (rate x)) (rate a)) := by
          intro he
          apply ha
          exact le_antisymm hMge (he ▸ hc)
        rw [List.find?_cons_of_neg _ (by simpa using hMc)]
        have h2 := ih a
        rw [List.find?_cons_of_neg _ (by simpa using ha)] at h2
        exact h2

theorem pickMaxFold_eq_find {α : Type} (rate : α → ℚ) (l : List α)
    (h0 : ∀ x ∈ l, 0 ≤ rate x) :
    pickMaxFold rate l
      = l.find? (fun c => rate c = (l.map rate).foldr max 0) := by
  cases l with
  | nil => rfl
  | cons a t =>
    have h1 : pickMaxFold rate (a :: t) = some (runMax rate a t) := by
      simp only [pickMaxFold, List.foldl_cons]
      exact foldl_opt_some_max rate t a
    have h2 : ((a :: t).map rate).foldr max 0
        = t.foldl (fun m x => max m (rate x)) (rate a) := by
      rw [foldl_max_eq_foldr rate t (rate a)
        (h0 a (List.mem_cons_self a t))
        (fun x hx => h0 x (List.mem_cons_of_mem a hx))]
      simp only [List.map_cons, List.foldr_cons]
    rw [h1]
    simp only [h2]
    exact (runMax_find rate t a).symm

theorem reliabilityRate_nonneg (a : AgentId) (receipts : List Receipt) :
    0 ≤ reliabilityRate a receipts := by
  unfold reliabilityRate
  by_cases h : (lastN 10 (getReceiptsByAgent a receipts)).length = 0
  · simp [h]
  · rw [if_neg h]
    positivity

/-- C5: for every battle's scorecards and receipt store, the code's winner
determination agrees with the specification's rules (highest last-10
fulfilled-fraction with first-listed tie-break for reliability;
first-minimal metric over the fulfilled-or-all pool for speed/gas/slippage
with missing metrics sorting last), and a speed battle whose scorecards all
failed still yields a winner. -/
theorem determineWinner_rules (battleType : BattleType)
    (cards : List BattleScorecard) (receipts : List Receipt) :
    determineWinner battleType cards receipts
      = specDetermineWinner battleType cards receipts
    ∧ (battleType = BattleType.speed →
        (∀ c ∈ cards, c.status = CardStatus.failed) → cards ≠ [] →
        (determineWinner battleType cards receipts).isSome) := by
  constructor
  · cases battleType with
    | reliability =>
      have h : pickMaxFold (fun c => reliabilityRate c.agentId receipts)
          cards
          = cards.find? (fun c => reliabilityRate c.agentId receipts
              = (cards.map
                  (fun d => reliabilityRate d.agentId receipts)).foldr
                  max 0) :=
        pickMaxFold_eq_find _ cards
          (fun c _ => reliabilityRate_nonneg c.agentId receipts)
      show (pickMaxFold (fun c => reliabilityRate c.agentId receipts)
          cards).map (·.agentId)
        = (cards.find? (fun c => reliabilityRate c.agentId receipts
            = (cards.map (fun d => reliabilityRate d.agentId receipts)).foldr
                max 0)).map (·.agentId)
      rw [h]
    | speed =>
      show (pickMinFold (fun c => metricKey c.latencyMs)
          (fulfilledPool cards)).map (·.agentId)
        = ((fulfilledPool cards).find? (fun c => metricKey c.latencyMs
            = minimumKey (fun d => metricKey d.latencyMs)
                (fulfilledPool cards))).map (·.agentId)
      rw [pickMinFold_eq_find (fun c => metricKey c.latencyMs)
        (fulfilledPool cards)]
    | gas =>
      show (pickMinFold (fun c => metricKey c.gasUsedUsd)
          (fulfilledPool cards)).map (·.agentId)
        = ((fulfilledPool cards).find? (fun c => metricKey c.gasUsedUsd
            = minimumKey (fun d => metricKey d.gasUsedUsd)
                (fulfilledPool cards))).map (·.agentId)
      rw [pickMinFold_eq_find (fun c => metricKey c.gasUsedUsd)
        (fulfilledPool cards)]
    | slippage =>
      show (pickMinFold (fun c => metricKey c.slippageBps)
          (if (fulfilledPool cards).filter (fun c => c.slippageBps.isSome)
              = [] then fulfilledPool cards
            else (fulfilledPool cards).filter
              (fun c => c.slippageBps.isSome))).map (·.agentId)
        = ((if (fulfilledPool cards).filter (fun c => c.slippageBps.isSome)
              = [] then fulfilledPool cards
            else (fulfilledPool cards).filter
              (fun c => c.slippageBps.isSome)).find?
            (fun c => metricKey c.slippageBps
              = minimumKey (fun d => metricKey d.slippageBps)
                  (if (fulfilledPool cards).filter
                      (fun c => c.slippageBps.isSome) = []
                    then fulfilledPool cards
                    else (fulfilledPool cards).filter
                      (fun c => c.slippageBps.isSome)))).map (·.agentId)
      rw [pickMinFold_eq_find (fun c => metricKey c.slippageBps)
        (if (fulfilledPool cards).filter (fun c => c.slippageBps.isSome)
            = [] then fulfilledPool cards
          else (fulfilledPool cards).filter
            (fun c => c.slippageBps.isSome))]
  · intro hbt hall hne
    subst hbt
    show ((pickMinFold (fun c => metricKey c.latencyMs)
        (fulfilledPool cards)).map (·.agentId)).isSome
    have hfil : cards.filter (fun c => c.status = CardStatus.fulfilled)
        = [] := by
      rw [List.filter_eq_nil_iff]
      intro c hc
      simp [hall c hc]
    have hpool : fulfilledPool cards = cards := by
      unfold fulfilledPool
      simp [hfil]
    rw [hpool]
    cases cards with
    | nil => exact absurd rfl hne
    | cons a t =>
      rw [show pickMinFold (fun c => metricKey c.latencyMs) (a :: t)
          = some (runMin (fun c => metricKey c.latencyMs) a t) from by
        simp only [pickMinFold, List.foldl_cons]
        exact foldl_opt_some_min _ t a]
      simp

/-- C5 (witness): a speed battle whose three scorecards all failed with
latencies 500/120/800 ms determines `fast` (latency 120) as the winner. -/
theorem determineWinner_rules_witness :
    (determineWinner BattleType.speed allFailedCards []).isSome
    ∧ determineWinner BattleType.speed allFailedCards []
      = some AgentId.fast := by
  refine ⟨(determineWinner_rules BattleType.speed allFailedCards []).2
    rfl ?_ ?_, ?_⟩
  · intro c hc
    simp only [allFailedCards, List.mem_cons, List.not_mem_nil,
      or_false] at hc
    rcases hc with rfl | rfl | rfl <;> rfl
  · simp [allFailedCards]
  · show (pickMinFold (fun c => metricKey c.latencyMs)
        (fulfilledPool allFailedCards)).map (·.agentId) = some AgentId.fast
    have h1 : fulfilledPool allFailedCards = allFailedCards := by
      simp [fulfilledPool, allFailedCards]
    rw [h1]
    show (pickMinFold (fun c => metricKey c.latencyMs) allFailedCards).map
      (·.agentId) = some AgentId.fast
    have hab : ((120:ℚ) : WithTop ℚ) < ((500:ℚ) : WithTop ℚ) := by
      rw [WithTop.coe_lt_coe]; norm_num
    have hcb : ¬ ((800:ℚ) : WithTop ℚ) < ((120:ℚ) : WithTop ℚ) := by
      rw [WithTop.coe_lt_coe]; norm_num
    simp only [allFailedCards, pickMinFold, List.foldl_cons, List.foldl_nil,
      metricKey]
    rw [if_pos hab]
    dsimp only []
    rw [if_neg hcb]
    rfl

/-- C4 (witness): the empty receipt list — all sub-scores 0 except a
neutral feedback of 70, composite `r1(7) = 7.0` — lies in `[0, 100]`. -/
theorem computeAQI_spec_witness :
    0 ≤ (computeAQI []).score ∧ (computeAQI []).score ≤ 100
    ∧ (computeAQI []).score = 7 := by
  have h := computeAQI_spec [] (by simp) (by simp) (by simp)
  refine ⟨h.1, h.2.1, ?_⟩
  rw [h.2.2.1]
  norm_num [scoreReliability, scoreSafety, scoreSpeed, scoreEconomics,
    scoreFeedback, r1, jsRound, Rat.floor_def]

-- ─── C6: store capacity bounds ───────────────────────────────────────────────

/-- C6 (counterexample): the claim that receipt, battle and stream-event
collections all stay within a fixed capacity with FIFO eviction is false
for receipts: `addReceipt` never evicts, so 5001 inserted receipts are all
kept, while the battle and stream-event buffers cap at 100 and 5000. -/
theorem store_bounded_counterexample :
    (addReceipt demoReceipt (List.replicate 5000 demoReceipt)).length = 5001
    ∧ (addBattle demoBattle (List.replicate 100 demoBattle)).length = 100
    ∧ (addStreamEvent demoStreamEvent
        (List.replicate 5000 demoStreamEvent)).length = 5000 := by
  refine ⟨?_, ?_, ?_⟩
  · simp only [addReceipt, List.length_append, List.length_replicate]
    rfl
  · have gen : ∀ l : List BattleRecord, l.length = 100 →
        (addBattle demoBattle l).length = 100 := by
      intro l hl
      simp only [addBattle, MAX_BATTLES]
      have hlen : (l ++ [demoBattle]).length = 101 := by
        rw [List.length_append, hl]; rfl
      simp only [hlen]
      rw [if_pos (show (101:Nat) > 100 by norm_num), List.length_drop]
      rw [hlen]
    exact gen _ (by rw [List.length_replicate])
  · have gen : ∀ l : List StreamEvent, l.length = 5000 →
        (addStreamEvent demoStreamEvent l).length = 5000 := by
      intro l hl
      simp only [addStreamEvent, MAX_STREAM_EVENTS]
      have hlen : (l ++ [demoStreamEvent]).length = 5001 := by
        rw [List.length_append, hl]; rfl
      simp only [hlen]
      rw [if_pos (show (5001:Nat) > 5000 by norm_num), List.length_drop]
      rw [hlen]
    exact gen _ (by rw [List.length_replicate])

/-- C6 (amended): battle and stream-event insertion keep their collections
within the fixed capacities 100 and 5000, evicting the oldest entry (FIFO)
at capacity; receipt insertion is an unbounded append. -/
theorem store_insert_bounds (r : Receipt) (b : BattleRecord)
    (e : StreamEvent) (receipts : List Receipt)
    (battles : List BattleRecord) (streamEvents : List StreamEvent)
    (hb : battles.length ≤ MAX_BATTLES)
    (he : streamEvents.length ≤ MAX_STREAM_EVENTS) :
    addReceipt r receipts = receipts ++ [r]
    ∧ (addBattle b battles).length ≤ MAX_BATTLES
    ∧ (addStreamEvent e streamEvents).length ≤ MAX_STREAM_EVENTS
    ∧ (battles.length = MAX_BATTLES →
        addBattle b battles = battles.tail ++ [b])
    ∧ (streamEvents.length = MAX_STREAM_EVENTS →
        addStreamEvent e streamEvents = streamEvents.tail ++ [e]) := by
  refine ⟨rfl, ?_, ?_, ?_, ?_⟩
  · simp only [addBattle]
    by_cases h : (battles ++ [b]).length > MAX_BATTLES
    · rw [if_pos h, List.length_drop]
      omega
    · rw [if_neg h]
      omega
  · simp only [addStreamEvent]
    by_cases h : (streamEvents ++ [e]).length > MAX_STREAM_EVENTS
    · rw [if_pos h, List.length_drop]
      omega
    · rw [if_neg h]
      omega
  · intro hlen
    simp only [addBattle]
    have hM : MAX_BATTLES = 100 := rfl
    have hl : (battles ++ [b]).length = MAX_BATTLES + 1 := by
      simp [hlen]
    rw [if_pos (by omega), hl]
    have h1 : MAX_BATTLES + 1 - MAX_BATTLES = 1 := by omega
    rw [h1, List.drop_append_of_le_length (by omega), List.drop_one]
  · intro hlen
    simp only [addStreamEvent]
    have hM : MAX_STREAM_EVENTS = 5000 := rfl
    have hl : (streamEvents ++ [e]).length = MAX_STREAM_EVENTS + 1 := by
      simp [hlen]
    rw [if_pos (by omega), hl]
    have h1 : MAX_STREAM_EVENTS + 1 - MAX_STREAM_EVENTS = 1 := by omega
    rw [h1, List.drop_append_of_le_length (by omega), List.drop_one]

/-- C6 (witness): at exactly full capacity the battle buffer evicts its
oldest record, and a receipt insert is a plain append. -/
theorem store_insert_bounds_witness :
    addReceipt demoReceipt [] = [demoReceipt]
    ∧ (addBattle demoBattle (List.replicate 100 demoBattle)).length
      ≤ MAX_BATTLES
    ∧ addBattle demoBattle (List.replicate 100 demoBattle)
      = (List.replicate 100 demoBattle).tail ++ [demoBattle] := by
  have h := store_insert_bounds demoReceipt demoBattle demoStreamEvent []
    (List.replicate 100 demoBattle) (List.replicate 5000 demoStreamEvent)
    (by rw [List.length_replicate]; exact Nat.le.refl)
    (by rw [List.length_replicate]; exact Nat.le.refl)
  exact ⟨h.1, h.2.1, h.2.2.2.1 (by rw [List.length_replicate]; rfl)⟩

-- ─── C7: stream reconciliation ───────────────────────────────────────────────

/-- `List.find?` commutes with patching the found element, when the patch
does not change the search key. -/
theorem find?_modifyFirst {α : Type} (p : α → Bool) (f : α → α)
    (hpf : ∀ x, p (f x) = p x) :
    ∀ (l : List α) (c : α), l.find? p = some c →
      (modifyFirst p f l).find? p = some (f c) := by
  intro l
  induction l with
  | nil =>
    intro c hc
    simp at hc
  | cons x xs ih =>
    intro c hc
    by_cases hx : p x = true
    · rw [List.find?_cons_of_pos _ hx] at hc
      have hcx := (Option.some.injEq _ _).mp hc
      subst hcx
      simp only [modifyFirst, if_pos hx]
      rw [List.find?_cons_of_pos _ (by rw [hpf]; exact hx)]
    · rw [List.find?_cons_of_neg _ hx] at hc
      simp only [modifyFirst, if_neg hx]
      rw [List.find?_cons_of_neg _ hx]
      exact ih c hc

/-- C7: applying a normalised confirmation event to the store.  With no
receipt matching the hash (case-insensitively) nothing changes; with a
first match at index `i` carrying on-chain evidence `oc`, exactly that
receipt is overwritten: gas-used, on-chain status, verification source
`quicknode` and timestamp are set, `outcome.status` becomes `fulfilled`
exactly when the EVM status is `"success"` and `failed` otherwise (so a
fulfilled receipt flips on `"reverted"`), every other receipt field is
unchanged, and — when the receipt carries a battle id — the first matching
scorecard in the owning battle is marked stream-verified. -/
theorem reconcile_stream_spec (txHash gasUsed evmStatus : String)
    (now : Nat) (st : StoreState) :
    (findReceiptIdx txHash st.receipts = none →
      reconcileStreamEvent txHash gasUsed evmStatus now st = st)
    ∧ (∀ i r oc, findReceiptIdx txHash st.receipts = some i →
        st.receipts[i]? = some r → r.onChain = some oc →
        (reconcileStreamEvent txHash gasUsed evmStatus now st).receipts
          = st.receipts.set i
              (applyStreamConfirmation r gasUsed evmStatus now)
        ∧ (applyStreamConfirmation r gasUsed evmStatus now).outcome.status
          = (if evmStatus = "success" then JobStatus.fulfilled
             else JobStatus.failed)
        ∧ (applyStreamConfirmation r gasUsed evmStatus now).onChain
          = some { oc with
              gasUsed := gasUsed
              status := if evmStatus = "success" then "success"
                        else "reverted"
              verifiedBy := some "quicknode"
              confirmedAt := some now }
        ∧ (applyStreamConfirmation r gasUsed evmStatus now).jobId = r.jobId
        ∧ (applyStreamConfirmation r gasUsed evmStatus now).agentId
          = r.agentId
        ∧ (applyStreamConfirmation r gasUsed evmStatus now).battleId
          = r.battleId
        ∧ (applyStreamConfirmation r gasUsed evmStatus
            now).outcome.latencyMs = r.outcome.latencyMs
        ∧ (applyStreamConfirmation r gasUsed evmStatus
            now).outcome.gasUsedUsd = r.outcome.gasUsedUsd
        ∧ (applyStreamConfirmation r gasUsed evmStatus
            now).outcome.slippageBps = r.outcome.slippageBps
        ∧ (evmStatus ≠ "success" →
            (applyStreamConfirmation r gasUsed evmStatus
              now).outcome.status = JobStatus.failed)
        ∧ (r.battleId = none →
            (reconcileStreamEvent txHash gasUsed evmStatus now st).battles
              = st.battles)
        ∧ (∀ bid, r.battleId = some bid →
            (reconcileStreamEvent txHash gasUsed evmStatus now st).battles
              = updateBattleScorecard bid r.agentId
                  (fun c => { c with verifiedByStream := some true })
                  st.battles
            ∧ ∀ b, st.battles.find? (fun x => x.battleId = bid) = some b →
              ∀ c, b.scorecards.find? (fun x => x.agentId = r.agentId)
                  = some c →
                ∃ b2, (reconcileStreamEvent txHash gasUsed evmStatus now
                    st).battles.find? (fun x => x.battleId = bid)
                  = some b2
                ∧ b2.scorecards.find? (fun x => x.agentId = r.agentId)
                  = some { c with verifiedByStream := some true })) := by
  constructor
  · intro h
    simp only [reconcileStreamEvent, h]
  · intro i r oc hidx hget hoc
    have happ : applyStreamConfirmation r gasUsed evmStatus now
        = { r with
            onChain := some { oc with
              gasUsed := gasUsed
              status := if evmStatus = "success" then "success"
                        else "reverted"
              verifiedBy := some "quicknode"
              confirmedAt := some now }
            outcome := { r.outcome with
              status := if evmStatus = "success" then JobStatus.fulfilled
                        else JobStatus.failed } } := by
      simp only [applyStreamConfirmation, hoc]
    have hrec : reconcileStreamEvent txHash gasUsed evmStatus now st
        = { receipts := st.receipts.set i
              (applyStreamConfirmation r gasUsed evmStatus now)
            battles :=
              match r.battleId with
              | some bid => updateBattleScorecard bid r.agentId
                  (fun c => { c with verifiedByStream := some true })
                  st.battles
              | none => st.battles } := by
      simp only [reconcileStreamEvent, hidx, hget]
    refine ⟨by rw [hrec], by rw [happ], by rw [happ], by rw [happ],
      by rw [happ], by rw [happ], by rw [happ], by rw [happ],
      by rw [happ], ?_, ?_, ?_⟩
    · intro hne
      rw [happ]
      show (if evmStatus = "success" then JobStatus.fulfilled
        else JobStatus.failed) = JobStatus.failed
      rw [if_neg hne]
    · intro hnone
      rw [hrec]
      show (match r.battleId with
        | some bid => updateBattleScorecard bid r.agentId
            (fun c => { c with verifiedByStream := some true }) st.battles
        | none => st.battles) = st.battles
      rw [hnone]
    · intro bid hbid
      have hbat : (reconcileStreamEvent txHash gasUsed evmStatus now
          st).battles
          = updateBattleScorecard bid r.agentId
              (fun c => { c with verifiedByStream := some true })
              st.battles := by
        rw [hrec]
        show (match r.battleId with
          | some bid => updateBattleScorecard bid r.agentId
              (fun c => { c with verifiedByStream := some true }) st.battles
          | none => st.battles) = _
        rw [hbid]
      refine ⟨hbat, ?_⟩
      intro b hb c hc
      refine
        ⟨{ b with
             scorecards :=
               modifyFirst (fun x => x.agentId = r.agentId)
                 (fun z => { z with verifiedByStream := some true })
                 b.scorecards },
         ?_, ?_⟩
      · rw [hbat]
        exact find?_modifyFirst (fun x => x.battleId = bid)
          (fun y => { y with
            scorecards :=
              modifyFirst (fun x => x.agentId = r.agentId)
                (fun z => { z with verifiedByStream := some true })
                y.scorecards })
          (fun x => rfl) st.battles b hb
      · exact find?_modifyFirst (fun x => x.agentId = r.agentId)
          (fun z => { z with verifiedByStream := some true })
          (fun x => rfl) b.scorecards c hc

/-- C7 (witness): a `"reverted"` confirmation matching the stored
fulfilled receipt flips its status to `failed` and marks the owning
battle's `fast` scorecard stream-verified. -/
theorem reconcile_stream_spec_witness :
    (reconcileStreamEvent "0xAB" "30000" "reverted" 99
        demoStore).receipts.map (fun r => r.outcome.status)
      = [JobStatus.failed]
    ∧ demoReceipt.outcome.status = JobStatus.fulfilled
    ∧ ∃ b2, (reconcileStreamEvent "0xAB" "30000" "reverted" 99
        demoStore).battles.find? (fun x => x.battleId = "bt1") = some b2
      ∧ (b2.scorecards.find? (fun x => x.agentId
          = demoReceipt.agentId)).map (fun c => c.verifiedByStream)
        = some (some true) := by
  have hidx : findReceiptIdx "0xAB" demoStore.receipts = some 0 := by
    simp [findReceiptIdx, demoStore, demoReceipt]
  obtain ⟨A1, A2, -, -, -, -, -, -, -, A10, -, A12⟩ :=
    (reconcile_stream_spec "0xAB" "30000" "reverted" 99 demoStore).2 0
    demoReceipt
    { txHash := "0xAB", blockNumber := 7, chainId := 84532
      gasUsed := "21000", status := "success", verifiedBy := none
      confirmedAt := none }
    hidx (by simp [demoStore]) rfl
  obtain ⟨B1, B2⟩ := A12 "bt1" rfl
  refine ⟨?_, rfl, ?_⟩
  · rw [A1]
    have hst : (applyStreamConfirmation demoReceipt "30000" "reverted"
        99).outcome.status = JobStatus.failed := A10 (by simp)
    simp only [demoStore, List.set_cons_zero, List.map_cons, List.map_nil,
      hst]
  · obtain ⟨b2, hb2, hc2⟩ := B2 demoBattle
      (by simp [demoStore, demoBattle])
      { agentId := .fast, jobId := some "job1", status := .fulfilled
        latencyMs := some 200, gasUsedUsd := none, slippageBps := none
        quotedOut := none, verifiedByStream := none }
      (by simp [demoBattle, demoReceipt])
    exact ⟨b2, hb2, by rw [hc2]; rfl⟩

-- ─── C8: the simulate-only pipeline skips quote/build/broadcast ──────────────

/-- Outside `real` mode the pipeline never calls the broadcaster and never
emits `tx_submitted` / `tx_confirmed`. -/
theorem runJob_no_send_of_not_real (mode : ExecutionMode)
    (sp : Option SwapParamsM) (bid : Option String) (c : Collaborators)
    (hm : mode ≠ ExecutionMode.real) :
    PipelineCall.sendCall ∉ (runJob mode sp bid c).calls
    ∧ JobEventTag.txSubmitted ∉ (runJob mode sp bid c).events
    ∧ JobEventTag.txConfirmed ∉ (runJob mode sp bid c).events := by
  cases mode with
  | real => exact absurd rfl hm
  | sim =>
    have hrun : runJob ExecutionMode.sim sp bid c
        = finishJob ExecutionMode.sim bid []
            [JobEventTag.queued, JobEventTag.running] none c := by
      simp only [runJob]
      rw [if_neg (by simp)]
    rw [hrun]
    simp only [finishJob]
    refine ⟨by simp, ?_, ?_⟩ <;>
      · simp
        cases c.agentReceipt.outcome.status <;> simp [statusTag]
  | quote =>
    cases sp with
    | none =>
      have hrun : runJob ExecutionMode.quote none bid c
          = finishJob ExecutionMode.quote bid []
              [JobEventTag.queued, JobEventTag.running] none c := by
        simp only [runJob]
        rw [if_neg (by simp)]
      rw [hrun]
      simp only [finishJob]
      refine ⟨by simp, ?_, ?_⟩ <;>
        · simp
          cases c.agentReceipt.outcome.status <;> simp [statusTag]
    | some s =>
      cases hq : c.quoteResult with
      | error e =>
        refine ⟨?_, ?_, ?_⟩ <;> simp [runJob, hq]
      | ok q =>
        cases hb : c.buildResult with
        | error e =>
          refine ⟨?_, ?_, ?_⟩ <;> simp [runJob, hq, hb]
        | ok tx =>
          refine ⟨?_, ?_, ?_⟩ <;>
            · simp [runJob, hq, hb, finishJob]
              try (cases c.agentReceipt.outcome.status <;> simp [statusTag])

/-- C8: a job with swap parameters in simulate-only (`sim`) mode makes no
quote, build or broadcast call and emits no `tx_submitted`/`tx_confirmed`
event; it still runs the agent simulation, stores exactly one receipt, and
its event trace ends in the receipt's terminal `fulfilled`/`failed` tag.
The broadcaster is called, and `tx_submitted`/`tx_confirmed` are emitted,
only in `real` mode. -/
theorem runJob_sim_pipeline :
    (∀ (sp : SwapParamsM) (bid : Option String) (c : Collaborators),
      (runJob ExecutionMode.sim (some sp) bid c).calls
        = [PipelineCall.simulateCall]
      ∧ PipelineCall.quoteCall
        ∉ (runJob ExecutionMode.sim (some sp) bid c).calls
      ∧ PipelineCall.buildCall
        ∉ (runJob ExecutionMode.sim (some sp) bid c).calls
      ∧ PipelineCall.sendCall
        ∉ (runJob ExecutionMode.sim (some sp) bid c).calls
      ∧ JobEventTag.txSubmitted
        ∉ (runJob ExecutionMode.sim (some sp) bid c).events
      ∧ JobEventTag.txConfirmed
        ∉ (runJob ExecutionMode.sim (some sp) bid c).events
      ∧ (runJob ExecutionMode.sim (some sp) bid c).storedReceipts.map
          (fun r => r.outcome.status) = [c.agentReceipt.outcome.status]
      ∧ (runJob ExecutionMode.sim (some sp) bid c).events
        = [JobEventTag.queued, JobEventTag.running,
           statusTag c.agentReceipt.outcome.status]
      ∧ (statusTag c.agentReceipt.outcome.status = JobEventTag.fulfilledEv
         ∨ statusTag c.agentReceipt.outcome.status = JobEventTag.failedEv))
    ∧ (∀ (mode : ExecutionMode) (sp : Option SwapParamsM)
        (bid : Option String) (c : Collaborators),
        PipelineCall.sendCall ∈ (runJob mode sp bid c).calls →
          mode = ExecutionMode.real)
    ∧ (∀ (mode : ExecutionMode) (sp : Option SwapParamsM)
        (bid : Option String) (c : Collaborators),
        JobEventTag.txSubmitted ∈ (runJob mode sp bid c).events →
          mode = ExecutionMode.real)
    ∧ (∀ (mode : ExecutionMode) (sp : Option SwapParamsM)
        (bid : Option String) (c : Collaborators),
        JobEventTag.txConfirmed ∈ (runJob mode sp bid c).events →
          mode = ExecutionMode.real) := by
  refine ⟨?_, ?_, ?_, ?_⟩
  · intro sp bid c
    have hrun : runJob ExecutionMode.sim (some sp) bid c
        = finishJob ExecutionMode.sim bid []
            [JobEventTag.queued, JobEventTag.running] none c := by
      simp only [runJob]
      rw [if_neg (by simp)]
    rw [hrun]
    simp only [finishJob]
    refine ⟨by simp, by simp, by simp, by simp, ?_, ?_, by simp, by simp,
      ?_⟩
    · simp
      cases c.agentReceipt.outcome.status <;> simp [statusTag]
    · simp
      cases c.agentReceipt.outcome.status <;> simp [statusTag]
    · cases c.agentReceipt.outcome.status <;> simp [statusTag]
  · intro mode sp bid c h
    by_cases hm : mode = ExecutionMode.real
    · exact hm
    · exact absurd h (runJob_no_send_of_not_real mode sp bid c hm).1
  · intro mode sp bid c h
    by_cases hm : mode = ExecutionMode.real
    · exact hm
    · exact absurd h (runJob_no_send_of_not_real mode sp bid c hm).2.1
  · intro mode sp bid c h
    by_cases hm : mode = ExecutionMode.real
    · exact hm
    · exact absurd h (runJob_no_send_of_not_real mode sp bid c hm).2.2

/-- C8 (witness): with all collaborators succeeding, a `real`-mode run does
call the broadcaster, and a `sim`-mode run of the same job emits exactly
`queued, running, fulfilled` and stores one receipt. -/
theorem runJob_sim_pipeline_witness :
    PipelineCall.sendCall
      ∈ (runJob ExecutionMode.real (some demoSwapParams) none
          demoCollaborators).calls
    ∧ ExecutionMode.real = ExecutionMode.real
    ∧ (runJob ExecutionMode.sim (some demoSwapParams) none
        demoCollaborators).events
      = [JobEventTag.queued, JobEventTag.running, JobEventTag.fulfilledEv]
    ∧ (runJob ExecutionMode.sim (some demoSwapParams) none
        demoCollaborators).storedReceipts.map (fun r => r.outcome.status)
      = [JobStatus.fulfilled] := by
  have hmem : PipelineCall.sendCall
      ∈ (runJob ExecutionMode.real (some demoSwapParams) none
          demoCollaborators).calls := by
    simp [runJob, finishJob, demoCollaborators]
  have h1 := (runJob_sim_pipeline).1 demoSwapParams none demoCollaborators
  have h2 := (runJob_sim_pipeline).2.1 ExecutionMode.real
    (some demoSwapParams) none demoCollaborators hmem
  refine ⟨hmem, h2, ?_, ?_⟩
  · rw [h1.2.2.2.2.2.2.2.1]
    simp [demoCollaborators, demoReceipt, statusTag]
  · rw [h1.2.2.2.2.2.2.1]
    simp [demoCollaborators, demoReceipt]

-- ─── C9: battle-creation input validation ────────────────────────────────────

theorem createBattle_reject_aux (req : BattleRequest) (battleId : String)
    (now : Nat) (battles : List BattleRecord)
    (resp : CreateBattleResponse)
    (hrun : createBattle req battleId now battles = (resp, battles))
    (hne : ∀ ids t, resp ≠ CreateBattleResponse.accepted battleId ids t)
    (hval : ¬ (req.x402Gate = false
      ∧ (∃ t, req.battleType = some t ∧ t ∈ VALID_TYPE_STRINGS)
      ∧ (∃ rawIds, req.agentIds = some rawIds
          ∧ 2 ≤ rawIds.length ∧ rawIds.length ≤ 3
          ∧ ∀ a ∈ rawIds, a ∈ VALID_AGENT_STRINGS)
      ∧ ∀ e, req.swapParams ≠ some (Except.error e))) :
    ((∃ ids t, (createBattle req battleId now battles).1
        = CreateBattleResponse.accepted battleId ids t)
      ↔ req.x402Gate = false
        ∧ (∃ t, req.battleType = some t ∧ t ∈ VALID_TYPE_STRINGS)
        ∧ (∃ rawIds, req.agentIds = some rawIds
            ∧ 2 ≤ rawIds.length ∧ rawIds.length ≤ 3
            ∧ ∀ a ∈ rawIds, a ∈ VALID_AGENT_STRINGS)
        ∧ ∀ e, req.swapParams ≠ some (Except.error e))
    ∧ ((∀ ids t, (createBattle req battleId now battles).1
          ≠ CreateBattleResponse.accepted battleId ids t) →
        (createBattle req battleId now battles).2 = battles)
    ∧ (∀ ids t, (createBattle req battleId now battles).1
          = CreateBattleResponse.accepted battleId ids t →
        ∃ b : BattleRecord,
          (createBattle req battleId now battles).2 = addBattle b battles
          ∧ b.battleId = battleId ∧ b.createdAt = now
          ∧ b.agentIds = ids ∧ b.battleType = t
          ∧ b.status = BattleStatus.running
          ∧ b.scorecards.map (fun c => (c.agentId, c.status))
              = ids.map (fun a => (a, CardStatus.pending))) := by
  rw [hrun]
  refine ⟨⟨?_, fun hv => absurd hv hval⟩, fun _ => rfl, ?_⟩
  · rintro ⟨ids, t, hacc⟩
    exact absurd hacc (hne ids t)
  · intro ids t hacc
    exact absurd hacc (hne ids t)

theorem createBattle_accept_aux (battleId : String) (now : Nat)
    (battles : List BattleRecord) (t : String) (rawIds : List String)
    (swp : Option (Except String SwapParamsM))
    (hrun : createBattle ⟨false, some t, some rawIds, swp⟩ battleId now
        battles
      = (CreateBattleResponse.accepted battleId
          (newBattleRecord battleId now t rawIds).agentIds
          (newBattleRecord battleId now t rawIds).battleType,
         addBattle (newBattleRecord battleId now t rawIds) battles))
    (ht : ¬ (t = "" ∨ t ∉ VALID_TYPE_STRINGS))
    (hlen : ¬ (rawIds.length < 2 ∨ rawIds.length > 3))
    (hsw : ∀ e, swp ≠ some (Except.error e))
    (hbad : ¬ ∃ a ∈ rawIds, a ∉ VALID_AGENT_STRINGS) :
    ((∃ ids t2,
        (createBattle ⟨false, some t, some rawIds, swp⟩ battleId now
          battles).1
        = CreateBattleResponse.accepted battleId ids t2)
      ↔ (⟨false, some t, some rawIds, swp⟩ : BattleRequest).x402Gate = false
        ∧ (∃ t2, (⟨false, some t, some rawIds, swp⟩ :
              BattleRequest).battleType = some t2
            ∧ t2 ∈ VALID_TYPE_STRINGS)
        ∧ (∃ ri, (⟨false, some t, some rawIds, swp⟩ :
              BattleRequest).agentIds = some ri
            ∧ 2 ≤ ri.length ∧ ri.length ≤ 3
            ∧ ∀ a ∈ ri, a ∈ VALID_AGENT_STRINGS)
        ∧ ∀ e, (⟨false, some t, some rawIds, swp⟩ :
              BattleRequest).swapParams ≠ some (Except.error e))
    ∧ ((∀ ids t2,
          (createBattle ⟨false, some t, some rawIds, swp⟩ battleId now
            battles).1
          ≠ CreateBattleResponse.accepted battleId ids t2) →
        (createBattle ⟨false, some t, some rawIds, swp⟩ battleId now
          battles).2 = battles)
    ∧ (∀ ids t2,
        (createBattle ⟨false, some t, some rawIds, swp⟩ battleId now
          battles).1
          = CreateBattleResponse.accepted battleId ids t2 →
        ∃ b : BattleRecord,
          (createBattle ⟨false, some t, some rawIds, swp⟩ battleId now
            battles).2 = addBattle b battles
          ∧ b.battleId = battleId ∧ b.createdAt = now
          ∧ b.agentIds = ids ∧ b.battleType = t2
          ∧ b.status = BattleStatus.running
          ∧ b.scorecards.map (fun c => (c.agentId, c.status))
              = ids.map (fun a => (a, CardStatus.pending))) := by
  rw [hrun]
  push_neg at ht hlen hbad
  refine ⟨⟨fun _ => ⟨rfl, ⟨t, rfl, ht.2⟩,
      ⟨rawIds, rfl, by omega, by omega, hbad⟩, hsw⟩, fun _ => ?_⟩,
    fun hne => absurd rfl (hne _ _), ?_⟩
  · exact ⟨(newBattleRecord battleId now t rawIds).agentIds,
      (newBattleRecord battleId now t rawIds).battleType, rfl⟩
  · intro ids t2 hacc
    injection hacc with h1 h2 h3
    subst h2
    subst h3
    refine ⟨newBattleRecord battleId now t rawIds, rfl, rfl, rfl, rfl, rfl,
      rfl, ?_⟩
    simp [newBattleRecord, List.map_map]

/-- C9 (counterexample): battle creation does not require the agent ids to
be distinct: the request with `battleType = "speed"` and
`agentIds = ["safe", "safe"]` — a duplicated id, hence not a list of
distinct agents — passes validation, is accepted, and creates a battle
record whose agent list is `[safe, safe]`. -/
theorem createBattle_distinct_counterexample :
    (createBattle ⟨false, some "speed", some ["safe", "safe"], none⟩
        "bt-dup" 0 []).1
      = CreateBattleResponse.accepted "bt-dup"
          [AgentId.safe, AgentId.safe] BattleType.speed
    ∧ ((createBattle ⟨false, some "speed", some ["safe", "safe"], none⟩
        "bt-dup" 0 []).2).map (fun b => b.agentIds)
      = [[AgentId.safe, AgentId.safe]]
    ∧ ¬ List.Nodup ["safe", "safe"] := by
  refine ⟨?_, ?_, by decide⟩ <;>
    simp [createBattle, newBattleRecord, addBattle, MAX_BATTLES,
      VALID_TYPE_STRINGS, VALID_AGENT_STRINGS, parseAgentId,
      parseBattleType]

/-- C9: battle creation accepts a request exactly when it passes the x402
gate and carries a valid battle type, an agent-id array of 2–3 entries all
of which are known agent ids, and (when present) parseable swap
parameters — distinctness of the ids is not among the checks; every
rejected request leaves the battle collection exactly as it was (no battle
record is created, no state mutated), and every accepted request appends
exactly one battle record built from the request (status `running`, one
`pending` scorecard per listed id) via `addBattle`. -/
theorem createBattle_validation (req : BattleRequest) (battleId : String)
    (now : Nat) (battles : List BattleRecord) :
    ((∃ ids t, (createBattle req battleId now battles).1
        = CreateBattleResponse.accepted battleId ids t)
      ↔ req.x402Gate = false
        ∧ (∃ t, req.battleType = some t ∧ t ∈ VALID_TYPE_STRINGS)
        ∧ (∃ rawIds, req.agentIds = some rawIds
            ∧ 2 ≤ rawIds.length ∧ rawIds.length ≤ 3
            ∧ ∀ a ∈ rawIds, a ∈ VALID_AGENT_STRINGS)
        ∧ ∀ e, req.swapParams ≠ some (Except.error e))
    ∧ ((∀ ids t, (createBattle req battleId now battles).1
          ≠ CreateBattleResponse.accepted battleId ids t) →
        (createBattle req battleId now battles).2 = battles)
    ∧ (∀ ids t, (createBattle req battleId now battles).1
          = CreateBattleResponse.accepted battleId ids t →
        ∃ b : BattleRecord,
          (createBattle req battleId now battles).2 = addBattle b battles
          ∧ b.battleId = battleId ∧ b.createdAt = now
          ∧ b.agentIds = ids ∧ b.battleType = t
          ∧ b.status = BattleStatus.running
          ∧ b.scorecards.map (fun c => (c.agentId, c.status))
              = ids.map (fun a => (a, CardStatus.pending))) := by
  obtain ⟨g, bt, ai, swp⟩ := req
  cases g with
  | true =>
    refine createBattle_reject_aux _ _ _ _
      CreateBattleResponse.paymentRequired rfl
      (fun ids t h => by cases h) ?_
    rintro ⟨hg, -⟩
    simp at hg
  | false =>
    cases bt with
    | none =>
      refine createBattle_reject_aux _ _ _ _
        (CreateBattleResponse.badRequest "battleType invalid") rfl
        (fun ids t h => by cases h) ?_
      rintro ⟨-, ⟨t, ht2, -⟩, -⟩
      simp at ht2
    | some t =>
      by_cases ht : t = "" ∨ t ∉ VALID_TYPE_STRINGS
      · refine createBattle_reject_aux _ _ _ _
          (CreateBattleResponse.badRequest "battleType invalid") ?_
          (fun ids t2 h => by cases h) ?_
        · simp only [createBattle]
          rw [if_pos ht]; exact rfl
        · intro hv
          obtain ⟨t2, ht2, htv⟩ := hv.2.1
          injection ht2 with h2
          subst h2
          rcases ht with h0 | h0
          · subst h0
            exact absurd htv (by decide)
          · exact h0 htv
      · cases ai with
        | none =>
          refine createBattle_reject_aux _ _ _ _
            (CreateBattleResponse.badRequest "agentIds invalid") ?_
            (fun ids t2 h => by cases h) ?_
          · simp only [createBattle]
            rw [if_neg ht]; exact rfl
          · intro hv
            obtain ⟨ri, hri, -⟩ := hv.2.2.1
            simp at hri
        | some rawIds =>
          by_cases hlen : rawIds.length < 2 ∨ rawIds.length > 3
          · refine createBattle_reject_aux _ _ _ _
              (CreateBattleResponse.badRequest "agentIds invalid") ?_
              (fun ids t2 h => by cases h) ?_
            · simp only [createBattle]
              rw [if_neg ht, if_pos hlen]; exact rfl
            · intro hv
              obtain ⟨ri, hri, h2, h3, -⟩ := hv.2.2.1
              injection hri with h4
              subst h4
              rcases hlen with h0 | h0 <;> omega
          · by_cases hbad : ∃ a ∈ rawIds, a ∉ VALID_AGENT_STRINGS
            · refine createBattle_reject_aux _ _ _ _
                (CreateBattleResponse.badRequest "unknown agentId") ?_
                (fun ids t2 h => by cases h) ?_
              · simp only [createBattle]
                rw [if_neg ht, if_neg hlen, if_pos hbad]; exact rfl
              · intro hv
                obtain ⟨ri, hri, -, -, hall⟩ := hv.2.2.1
                injection hri with h4
                subst h4
                obtain ⟨a, ha, hna⟩ := hbad
                exact hna (hall a ha)
            · cases swp with
              | none =>
                refine createBattle_accept_aux battleId now battles t
                  rawIds none ?_ ht hlen (fun e h => by cases h) hbad
                simp only [createBattle]
                rw [if_neg ht, if_neg hlen, if_neg hbad]; exact rfl
              | some r =>
                cases r with
                | error e =>
                  refine createBattle_reject_aux _ _ _ _
                    (CreateBattleResponse.badRequest e) ?_
                    (fun ids t2 h => by cases h) ?_
                  · simp only [createBattle]
                    rw [if_neg ht, if_neg hlen, if_neg hbad]; exact rfl
                  · intro hv
                    exact hv.2.2.2 e rfl
                | ok sw =>
                  refine createBattle_accept_aux battleId now battles t
                    rawIds (some (Except.ok sw)) ?_ ht hlen
                    (fun e h => by simp at h) hbad
                  simp only [createBattle]
                  rw [if_neg ht, if_neg hlen, if_neg hbad]; exact rfl

/-- C9 (witness): the valid request `battleType = "gas"`,
`agentIds = ["safe", "cheap"]` is accepted and appends the corresponding
running battle record; the invalid request with a single agent id is
rejected and leaves the (empty) battle collection unchanged. -/
theorem createBattle_validation_witness :
    (∃ b : BattleRecord,
      (createBattle ⟨false, some "gas", some ["safe", "cheap"], none⟩
          "bt1" 5 []).2 = addBattle b []
      ∧ b.battleId = "bt1" ∧ b.createdAt = 5
      ∧ b.agentIds = [AgentId.safe, AgentId.cheap]
      ∧ b.battleType = BattleType.gas
      ∧ b.status = BattleStatus.running
      ∧ b.scorecards.map (fun c => (c.agentId, c.status))
          = [AgentId.safe, AgentId.cheap].map
              (fun a => (a, CardStatus.pending)))
    ∧ (createBattle ⟨false, some "speed", some ["safe"], none⟩
        "bt2" 0 []).2 = [] := by
  constructor
  · exact (createBattle_validation
        ⟨false, some "gas", some ["safe", "cheap"], none⟩ "bt1" 5 []).2.2
      [AgentId.safe, AgentId.cheap] BattleType.gas (by decide)
  · refine (createBattle_validation
        ⟨false, some "speed", some ["safe"], none⟩ "bt2" 0 []).2.1 ?_
    intro ids t h
    simp [createBattle, VALID_TYPE_STRINGS] at h

-- ─── C10: paper-bet placement stake bounds ───────────────────────────────────

theorem placeBetRoute_noop_aux (req : PlaceBetRequest) (freshId now : Nat)
    (st : PaperState) (resp : PlaceBetResponse)
    (hrun : placeBetRoute req freshId now st = (resp, st))
    (hne : ∀ bet, resp ≠ PlaceBetResponse.created bet) :
    (∀ bet, (placeBetRoute req freshId now st).1
        = PlaceBetResponse.created bet →
      req.amountEth = some bet.amountEth
      ∧ MIN_BET ≤ bet.amountEth ∧ bet.amountEth ≤ MAX_BET
      ∧ (placeBetRoute req freshId now st).2.paperBets
          = st.paperBets ++ [bet])
    ∧ ((∀ bet, (placeBetRoute req freshId now st).1
          ≠ PlaceBetResponse.created bet) →
        (placeBetRoute req freshId now st).2 = st)
    ∧ ((∀ b ∈ st.paperBets,
          MIN_BET ≤ b.amountEth ∧ b.amountEth ≤ MAX_BET) →
        ∀ b ∈ (placeBetRoute req freshId now st).2.paperBets,
          MIN_BET ≤ b.amountEth ∧ b.amountEth ≤ MAX_BET) := by
  rw [hrun]
  exact ⟨fun bet h => absurd h (hne bet), fun _ => rfl, fun hb => hb⟩

/-- C10: the placement endpoint stores a bet only when the parsed stake
lies in [`MIN_BET`, `MAX_BET`] = [0.001, 10] ETH: a `created` response
carries exactly the parsed amount, which satisfies both bounds, and the
new state appends exactly that bet; every other response (missing or
non-numeric amount, out-of-range stake, other validation failures, a
duplicate-nickname conflict) leaves the whole paper-bet state — bets,
results, nickname aggregates, event log — unchanged; hence a store whose
bets all satisfy the bounds still does after any request. -/
theorem placeBetRoute_bounds (req : PlaceBetRequest) (freshId now : Nat)
    (st : PaperState) :
    (∀ bet, (placeBetRoute req freshId now st).1
        = PlaceBetResponse.created bet →
      req.amountEth = some bet.amountEth
      ∧ MIN_BET ≤ bet.amountEth ∧ bet.amountEth ≤ MAX_BET
      ∧ (placeBetRoute req freshId now st).2.paperBets
          = st.paperBets ++ [bet])
    ∧ ((∀ bet, (placeBetRoute req freshId now st).1
          ≠ PlaceBetResponse.created bet) →
        (placeBetRoute req freshId now st).2 = st)
    ∧ ((∀ b ∈ st.paperBets,
          MIN_BET ≤ b.amountEth ∧ b.amountEth ≤ MAX_BET) →
        ∀ b ∈ (placeBetRoute req freshId now st).2.paperBets,
          MIN_BET ≤ b.amountEth ∧ b.amountEth ≤ MAX_BET) := by
  obtain ⟨rbid, rnick, raid, ramt⟩ := req
  cases rbid with
  | none =>
    exact placeBetRoute_noop_aux _ _ _ _
      (PlaceBetResponse.badRequest "battleId is required") rfl
      (fun bet h => by cases h)
  | some battleId =>
    by_cases hbid : battleId = ""
    · refine placeBetRoute_noop_aux _ _ _ _
        (PlaceBetResponse.badRequest "battleId is required") ?_
        (fun bet h => by cases h)
      simp only [placeBetRoute]
      rw [if_pos hbid]
    · cases rnick with
      | none =>
        refine placeBetRoute_noop_aux _ _ _ _
          (PlaceBetResponse.badRequest "nickname is required") ?_
          (fun bet h => by cases h)
        simp only [placeBetRoute]
        rw [if_neg hbid]
      | some nickname =>
        by_cases hnick : jsTrim nickname = "" ∨ nickname.length > 40
        · refine placeBetRoute_noop_aux _ _ _ _
            (PlaceBetResponse.badRequest "nickname is required") ?_
            (fun bet h => by cases h)
          simp only [placeBetRoute]
          rw [if_neg hbid, if_pos hnick]
        · cases haid : raid.bind parseAgentId with
          | none =>
            refine placeBetRoute_noop_aux _ _ _ _
              (PlaceBetResponse.badRequest "agentId invalid") ?_
              (fun bet h => by cases h)
            simp only [placeBetRoute]
            rw [if_neg hbid, if_neg hnick, haid]
          | some agentId =>
            cases ramt with
            | none =>
              refine placeBetRoute_noop_aux _ _ _ _
                (PlaceBetResponse.badRequest "amountEth out of range") ?_
                (fun bet h => by cases h)
              simp only [placeBetRoute]
              rw [if_neg hbid, if_neg hnick, haid]
            | some amount =>
              by_cases hamt : amount < MIN_BET ∨ amount > MAX_BET
              · refine placeBetRoute_noop_aux _ _ _ _
                  (PlaceBetResponse.badRequest "amountEth out of range") ?_
                  (fun bet h => by cases h)
                simp only [placeBetRoute]
                rw [if_neg hbid, if_neg hnick, haid]
                dsimp only []
                rw [if_pos hamt]
              · cases hdup : (getBetsForBattle battleId st).find?
                    (fun b => jsToLower b.nickname
                      = jsToLower (jsTrim nickname)) with
                | some existing =>
                  refine placeBetRoute_noop_aux _ _ _ _
                    (PlaceBetResponse.conflict existing) ?_
                    (fun bet h => by cases h)
                  simp only [placeBetRoute]
                  rw [if_neg hbid, if_neg hnick, haid]
                  dsimp only []
                  rw [if_neg hamt, hdup]
                | none =>
                  have hrun : placeBetRoute
                      ⟨some battleId, some nickname, raid, some amount⟩
                      freshId now st
                      = (PlaceBetResponse.created
                          (placeBet battleId (jsTrim nickname) agentId
                            amount freshId now st).1,
                         (placeBet battleId (jsTrim nickname) agentId
                            amount freshId now st).2) := by
                    simp only [placeBetRoute]
                    rw [if_neg hbid, if_neg hnick, haid]
                    dsimp only []
                    rw [if_neg hamt, hdup]
                  push_neg at hamt
                  refine ⟨?_, ?_, ?_⟩
                  · intro bet h
                    rw [hrun] at h
                    injection h with h1
                    subst h1
                    refine ⟨rfl, hamt.1, hamt.2, ?_⟩
                    rw [hrun]
                    simp [placeBet]
                  · intro hne
                    exfalso
                    apply hne (placeBet battleId (jsTrim nickname) agentId
                      amount freshId now st).1
                    rw [hrun]
                  · intro hb b hbm
                    rw [hrun] at hbm
                    simp [placeBet] at hbm
                    rcases hbm with h | h
                    · exact hb b h
                    · subst h
                      exact ⟨hamt.1, hamt.2⟩

/-- C10 (witness): the 0.005 ETH request is stored as the single appended
bet (its stake satisfies both bounds), and the 0.0005 ETH request — below
the minimum — changes nothing in the paper-bet state. -/
theorem placeBetRoute_bounds_witness :
    (MIN_BET ≤ ((⟨7, "b1", jsTrim "bob", AgentId.fast, 1/200, 0⟩ :
          PaperBet).amountEth)
      ∧ ((⟨7, "b1", jsTrim "bob", AgentId.fast, 1/200, 0⟩ :
          PaperBet).amountEth) ≤ MAX_BET
      ∧ (placeBetRoute goodPlaceReq 7 0 emptyPaper).2.paperBets
          = emptyPaper.paperBets
            ++ [⟨7, "b1", jsTrim "bob", AgentId.fast, 1/200, 0⟩])
    ∧ (placeBetRoute lowPlaceReq 7 0 emptyPaper).2 = emptyPaper := by
  have hgood : (placeBetRoute goodPlaceReq 7 0 emptyPaper).1
      = PlaceBetResponse.created
          ⟨7, "b1", jsTrim "bob", AgentId.fast, 1/200, 0⟩ := by
    simp only [placeBetRoute, goodPlaceReq]
    rw [if_neg (by decide), if_neg (by decide),
      show (some "fast").bind parseAgentId = some AgentId.fast from rfl]
    dsimp only []
    rw [if_neg (by norm_num [MIN_BET, MAX_BET]),
      show (getBetsForBattle "b1" emptyPaper).find?
          (fun b => jsToLower b.nickname = jsToLower (jsTrim "bob"))
        = none from rfl]
    exact rfl
  have hlow : (placeBetRoute lowPlaceReq 7 0 emptyPaper).1
      = PlaceBetResponse.badRequest "amountEth out of range" := by
    simp only [placeBetRoute, lowPlaceReq]
    rw [if_neg (by decide), if_neg (by decide),
      show (some "fast").bind parseAgentId = some AgentId.fast from rfl]
    dsimp only []
    rw [if_pos (by norm_num [MIN_BET, MAX_BET])]
  have h1 := (placeBetRoute_bounds goodPlaceReq 7 0 emptyPaper).1 _ hgood
  refine ⟨⟨h1.2.1, h1.2.2.1, h1.2.2.2⟩, ?_⟩
  exact (placeBetRoute_bounds lowPlaceReq 7 0 emptyPaper).2.1
    (fun bet h => by rw [hlow] at h; cases h)

end AgentAqi
